import Mathlib

/-!
Tiled: properties widget and world scripting wrapper

A shallow embedding of the command-issuing code of
`src/tiled/propertieswidget.cpp` and `src/tiled/editableworld.cpp`.

Every member function that talks to the undo stack is embedded as a pure
function returning the sequence of calls it makes on `QUndoStack`
(`beginMacro`, `push`, `endMacro`), in program order.  Pointers are embedded
as records carrying an `id` (the pointer identity) together with the state the
pointee has when the function runs.
-/

namespace Tiled

/-! ## Values and property maps -/

/-- The `QVariant` values the property code tells apart: the invalid variant
and a few payload kinds. -/
inductive QVariant where
  | invalid
  | bool (b : Bool)
  | int (i : Int)
  | string (s : String)
  deriving DecidableEq, Repr

/-- `QVariant::isValid`. -/
def QVariant.isValid : QVariant → Bool
  | .invalid => false
  | _ => true

/-- `Tiled::Properties` is `QMap<QString, QVariant>`: at most one value per
name, iterated in key order.  It is embedded as the list of its entries in
iteration order. -/
abbrev Properties := List (String × QVariant)

namespace Properties

/-- `QMap::value(name)`, with `none` for an absent name. -/
def value (p : Properties) (name : String) : Option QVariant :=
  match p with
  | [] => none
  | (k, v) :: rest => if name = k then some v else value rest name

/-- `QMap::contains`. -/
def contains (p : Properties) (name : String) : Bool :=
  (value p name).isSome

/-- `QMap::insert`: replaces the value of a name that is present, and
otherwise adds the entry at its place in key order (`QString` order, here the
lexicographic order of the characters). -/
def insert (p : Properties) (name : String) (v : QVariant) : Properties :=
  match p with
  | [] => [(name, v)]
  | (k, w) :: rest =>
    if name = k then (name, v) :: rest
    else if name.data < k.data then (name, v) :: (k, w) :: rest
    else (k, w) :: insert rest name v

/-- `QMap::keys`. -/
def keys (p : Properties) : List String :=
  p.map Prod.fst

end Properties

/-- Modelled from the spec: `mergeProperties` is declared in libtiled's
`properties.h`, which is not among the sources.  Spec §4.3: "inserts every
name from `source` not already present in `target`, leaving existing entries
in `target` untouched." -/
def mergeProperties (target source : Properties) : Properties :=
  match source with
  | [] => target
  | (name, v) :: rest =>
    if Properties.contains target name then mergeProperties target rest
    else mergeProperties (Properties.insert target name v) rest

/-! ## Objects and documents -/

/-- `Object::TypeId`. -/
inductive TypeId where
  | LayerType
  | MapObjectType
  | MapType
  | TilesetType
  | TileType
  | WangSetType
  | WangColorType
  | ProjectType
  | WorldType
  deriving DecidableEq, Repr

/-- A `Tiled::Object *`: the pointer identity `id` and the members the
properties code reads through it. -/
structure Object where
  id : Nat
  typeId : TypeId := TypeId.MapObjectType
  className : String := ""
  properties : Properties := []
  /-- `Object::inheritedProperties()`, computed in libtiled. -/
  inheritedProperties : Properties := []
  /-- For a map object, the identity of `cell().tile()`; `none` is the null
  tile. -/
  cellTile : Option Nat := none
  deriving DecidableEq, Repr

/-- `Object::hasProperty`. -/
def Object.hasProperty (o : Object) (name : String) : Bool :=
  Properties.contains o.properties name

/-- The part of `Tiled::Document` read by the properties code. -/
structure Document where
  currentObject : Option Object := none
  currentObjects : List Object := []
  deriving DecidableEq, Repr

/-! ## The undo stack -/

/-- One call on `QUndoStack`. -/
inductive UndoCall (α : Type) where
  | beginMacro (text : String)
  | push (command : α)
  | endMacro
  deriving DecidableEq, Repr

/-- One entry of the undo history: a single command, or the commands pushed
between a `beginMacro` and its `endMacro`. -/
inductive HistoryEntry (α : Type) where
  | single (command : α)
  | group (text : String) (children : List α)
  deriving DecidableEq, Repr

/-- The `QUndoStack` as the callers in this file use it: the closed entries,
the group being recorded (if any) and its nesting depth. -/
structure QUndoStack (α : Type) where
  entries : List (HistoryEntry α) := []
  recording : Option (String × List α) := none
  depth : Nat := 0
  deriving DecidableEq, Repr

namespace QUndoStack

/-- The effect of one call.  A command pushed while a group is being recorded
joins that group; otherwise it is an entry of its own. -/
def call {α : Type} (s : QUndoStack α) : UndoCall α → QUndoStack α
  | .beginMacro text =>
    match s.recording with
    | none => { s with recording := some (text, []), depth := 1 }
    | some _ => { s with depth := s.depth + 1 }
  | .push c =>
    match s.recording with
    | none => { s with entries := s.entries ++ [HistoryEntry.single c] }
    | some (text, cs) => { s with recording := some (text, cs ++ [c]) }
  | .endMacro =>
    match s.recording with
    | none => s
    | some (text, cs) =>
      if s.depth ≤ 1 then
        { entries := s.entries ++ [HistoryEntry.group text cs], recording := none, depth := 0 }
      else { s with depth := s.depth - 1 }

/-- A sequence of calls, in order. -/
def run {α : Type} (s : QUndoStack α) (calls : List (UndoCall α)) : QUndoStack α :=
  calls.foldl call s

end QUndoStack

/-- The commands pushed by a sequence of calls, in order. -/
def pushedCommands {α : Type} : List (UndoCall α) → List α
  | [] => []
  | .push c :: rest => c :: pushedCommands rest
  | _ :: rest => pushedCommands rest

/-- `QCoreApplication::translate` with a plural count: without a translator
installed the source text is returned. -/
def translate (sourceText : String) (_n : Nat) : String :=
  sourceText

/-! ## PropertiesWidget: paste -/

/-- The commands of the properties dock. -/
inductive PropertyCommand where
  | ChangeProperties (object : Object) (properties : Properties)
  | SetProperty (objects : List Object) (path : List String) (value : QVariant)
  | RemoveProperty (objects : List Object) (name : String)
  | RenameProperty (objects : List Object) (oldName newName : String)
  deriving DecidableEq, Repr

/-- The loop of `PropertiesWidget::pasteProperties` filling `commands`. -/
def pasteCommands (pastedProperties : Properties) : List Object → List PropertyCommand
  | [] => []
  | object :: rest =>
    let properties := mergeProperties object.properties pastedProperties
    if object.properties ≠ properties then
      PropertyCommand.ChangeProperties object properties :: pasteCommands pastedProperties rest
    else pasteCommands pastedProperties rest

/-- `PropertiesWidget::pasteProperties`; `clipboard` is
`ClipboardManager::instance()->properties()`. -/
def pasteProperties (clipboard : Properties) (mDocument : Document) :
    List (UndoCall PropertyCommand) :=
  let pastedProperties := clipboard
  if pastedProperties.isEmpty then []
  else
    let objects := mDocument.currentObjects
    if objects.isEmpty then []
    else
      let commands := pasteCommands pastedProperties objects
      if !commands.isEmpty then
        UndoCall.beginMacro (translate "Paste Property/Properties" pastedProperties.length)
          :: (commands.map UndoCall.push ++ [UndoCall.endMacro])
      else []

/-! ## Map documents, layers and map objects -/

/-- `qreal`, embedded as exact rationals. -/
abbrev qreal := ℚ

/-- `Layer::TypeFlag`. -/
inductive TypeFlag where
  | TileLayerType
  | ObjectGroupType
  | ImageLayerType
  | GroupLayerType
  deriving DecidableEq, Repr

/-- A `Layer *`: pointer identity and the members read by the layer
properties. -/
structure Layer where
  id : Nat
  layerType : TypeFlag := TypeFlag.TileLayerType
  repeatX : Bool := false
  repeatY : Bool := false
  /-- `Layer::offset()`, a `QPointF` as the pair of its coordinates. -/
  offset : qreal × qreal := (0, 0)
  deriving DecidableEq, Repr

/-- `Tiled::Cell`, declared in libtiled: the tile of the cell (`none` is the
null tile) and its flags, an `int` holding the bits of `Cell::Flags`. -/
structure Cell where
  tile : Option Nat := none
  flags : Nat := 0
  deriving DecidableEq, Repr

/-- `Cell::FlippedHorizontally`, `0x01`. -/
def Cell.FlippedHorizontally : Nat := 1

/-- `Cell::FlippedVertically`, `0x02`. -/
def Cell.FlippedVertically : Nat := 2

/-- Setting a flag of a cell sets the bits of `mask` (`flags |= mask`),
clearing it removes them (`flags &= ~mask`, which on the naturals is
`flags ^ (flags & mask)`). -/
def Cell.setFlag (cell : Cell) (mask : Nat) (f : Bool) : Cell :=
  if f then { cell with flags := cell.flags ||| mask }
  else { cell with flags := cell.flags ^^^ (cell.flags &&& mask) }

/-- `Cell::setFlippedHorizontally`. -/
def Cell.setFlippedHorizontally (cell : Cell) (f : Bool) : Cell :=
  cell.setFlag Cell.FlippedHorizontally f

/-- `Cell::setFlippedVertically`. -/
def Cell.setFlippedVertically (cell : Cell) (f : Bool) : Cell :=
  cell.setFlag Cell.FlippedVertically f

/-- A `MapObject *`. -/
structure MapObject where
  id : Nat
  /-- `MapObject::position()`. -/
  position : qreal × qreal := (0, 0)
  /-- `MapObject::size()`. -/
  size : qreal × qreal := (0, 0)
  /-- `MapObject::hasDimensions()`. -/
  hasDimensions : Bool := true
  /-- `MapObject::cell()`. -/
  cell : Cell := {}
  deriving DecidableEq, Repr

/-- `TransformState`, declared in `transformmapobjects.h`: the position and
size of a map object, taken from the object on construction and changed with
`setPosition` and `setSize`. -/
structure TransformState where
  position : qreal × qreal := (0, 0)
  size : qreal × qreal := (0, 0)
  deriving DecidableEq, Repr

/-- `TransformState(object)`. -/
def TransformState.ofMapObject (object : MapObject) : TransformState :=
  { position := object.position, size := object.size }

/-- The part of `MapDocument` read by the layer and map object properties. -/
structure MapDocument extends Document where
  selectedLayers : List Layer := []
  selectedObjects : List MapObject := []
  deriving DecidableEq, Repr

/-- The flags of `MapObject::Property` named in `propertieswidget.cpp`. -/
inductive MapObjectProperty where
  | NameProperty
  | VisibleProperty
  | TextProperty
  | TextFontProperty
  | TextAlignmentProperty
  | TextWordWrapProperty
  | TextColorProperty
  | PositionProperty
  | SizeProperty
  | RotationProperty
  | CellProperty
  deriving DecidableEq, Repr

/-- The commands of `MapObjectProperties::changeMapObject`. -/
inductive MapObjectCommand where
  | ChangeMapObject (mapObject : MapObject) (property : MapObjectProperty) (value : QVariant)
  | TransformMapObjects (mapObjects : List MapObject) (states : List TransformState)
  | ChangeMapObjectCells (changes : List (MapObject × Cell))
  deriving DecidableEq, Repr

/-- The objects a map object command changes: `ChangeMapObject` is constructed
from a single `MapObject *`. -/
def MapObjectCommand.affected : MapObjectCommand → List MapObject
  | .ChangeMapObject mapObject _ _ => [mapObject]
  | .TransformMapObjects mapObjects _ => mapObjects
  | .ChangeMapObjectCells changes => changes.map Prod.fst

/-- `MapObjectProperties::changeMapObject`.  `text` is `QUndoCommand::text()`
of the `ChangeMapObject` command, set in its constructor (not among the
sources); `mapObject` is the object the view displays. -/
def changeMapObject (text : MapObjectCommand → String) (mapDocument : MapDocument)
    (mapObject : MapObject) (property : MapObjectProperty) (value : QVariant) :
    List (UndoCall MapObjectCommand) :=
  let command := MapObjectCommand.ChangeMapObject mapObject property value
  if mapDocument.selectedObjects.length = 1 then [UndoCall.push command]
  else
    UndoCall.beginMacro (text command) :: UndoCall.push command ::
      (((mapDocument.selectedObjects.filter (fun obj => obj.id ≠ mapObject.id)).map
          (fun obj => UndoCall.push (MapObjectCommand.ChangeMapObject obj property value)))
        ++ [UndoCall.endMacro])

/-- `MapObjectProperties::mVisibleProperty`, setter. -/
def MapObjectProperties.setVisible (text : MapObjectCommand → String)
    (mapDocument : MapDocument) (mapObject : MapObject) (value : Bool) :
    List (UndoCall MapObjectCommand) :=
  changeMapObject text mapDocument mapObject MapObjectProperty.VisibleProperty (QVariant.bool value)

/-! ## Layer properties -/

/-- `ObjectGroup::DrawOrder`. -/
inductive DrawOrder where
  | UnknownOrder
  | TopDownOrder
  | IndexOrder
  deriving DecidableEq, Repr

/-- The commands pushed by the layer property groups.  Colours are embedded
by their ARGB value, urls by their text. -/
inductive LayerCommand where
  | SetLayerName (layers : List Layer) (name : String)
  | SetLayerVisible (layers : List Layer) (visible : Bool)
  | SetLayerLocked (layers : List Layer) (locked : Bool)
  | SetLayerOpacity (layers : List Layer) (opacity : qreal)
  | SetLayerTintColor (layers : List Layer) (tintColor : Nat)
  | SetLayerOffset (layers : List Layer) (offsets : List (qreal × qreal))
  | SetLayerParallaxFactor (layers : List Layer) (parallaxFactor : qreal × qreal)
  | ChangeImageLayerImageSource (imageLayers : List Layer) (imageSource : String)
  | ChangeImageLayerTransparentColor (imageLayers : List Layer) (color : Nat)
  | ChangeImageLayerRepeatX (imageLayers : List Layer) (repeatX : Bool)
  | ChangeImageLayerRepeatY (imageLayers : List Layer) (repeatY : Bool)
  | ChangeObjectGroupColor (objectGroups : List Layer) (color : Nat)
  | ChangeObjectGroupDrawOrder (objectGroups : List Layer) (drawOrder : DrawOrder)
  deriving DecidableEq, Repr

/-- The layers a layer command is parameterised over. -/
def LayerCommand.layers : LayerCommand → List Layer
  | .SetLayerName l _ => l
  | .SetLayerVisible l _ => l
  | .SetLayerLocked l _ => l
  | .SetLayerOpacity l _ => l
  | .SetLayerTintColor l _ => l
  | .SetLayerOffset l _ => l
  | .SetLayerParallaxFactor l _ => l
  | .ChangeImageLayerImageSource l _ => l
  | .ChangeImageLayerTransparentColor l _ => l
  | .ChangeImageLayerRepeatX l _ => l
  | .ChangeImageLayerRepeatY l _ => l
  | .ChangeObjectGroupColor l _ => l
  | .ChangeObjectGroupDrawOrder l _ => l

namespace LayerProperties

/-- `mNameProperty`, setter. -/
def setName (mapDocument : MapDocument) (value : String) : List (UndoCall LayerCommand) :=
  [UndoCall.push (LayerCommand.SetLayerName mapDocument.selectedLayers value)]

/-- `mVisibleProperty`, setter. -/
def setVisible (mapDocument : MapDocument) (value : Bool) : List (UndoCall LayerCommand) :=
  [UndoCall.push (LayerCommand.SetLayerVisible mapDocument.selectedLayers value)]

/-- `mLockedProperty`, setter. -/
def setLocked (mapDocument : MapDocument) (value : Bool) : List (UndoCall LayerCommand) :=
  [UndoCall.push (LayerCommand.SetLayerLocked mapDocument.selectedLayers value)]

/-- `mOpacityProperty`, setter: `qreal(value) / 100`. -/
def setOpacity (mapDocument : MapDocument) (value : Int) : List (UndoCall LayerCommand) :=
  [UndoCall.push (LayerCommand.SetLayerOpacity mapDocument.selectedLayers ((value : qreal) / 100))]

/-- `mTintColorProperty`, setter. -/
def setTintColor (mapDocument : MapDocument) (value : Nat) : List (UndoCall LayerCommand) :=
  [UndoCall.push (LayerCommand.SetLayerTintColor mapDocument.selectedLayers value)]

/-- `mParallaxFactorProperty`, setter. -/
def setParallaxFactor (mapDocument : MapDocument) (value : qreal × qreal) :
    List (UndoCall LayerCommand) :=
  [UndoCall.push (LayerCommand.SetLayerParallaxFactor mapDocument.selectedLayers value)]

/-- `LayerProperties::selectedLayersOfType`.  `mDocument` is the document
pointer of the property group, `none` when null.  The guard
`if (mDocument) return {};` comes first; the loop after it reads
`mapDocument()->selectedLayers()`, where `mapDocument()` is `mDocument` cast
to `MapDocument *`, so with a null pointer no value is defined (`none`). -/
def selectedLayersOfType (mDocument : Option MapDocument) (typeFlag : TypeFlag) :
    Option (List Layer) :=
  if mDocument.isSome then some []
  else
    mDocument.map (fun mapDocument =>
      mapDocument.selectedLayers.filter (fun layer => layer.layerType = typeFlag))

/-- The selected layers of one type as the specification describes them: the
selected layers whose `layerType()` equals the flag, in selection order. -/
def specSelectedLayersOfType (mapDocument : MapDocument) (typeFlag : TypeFlag) : List Layer :=
  mapDocument.selectedLayers.filter (fun layer => layer.layerType = typeFlag)

end LayerProperties

namespace ImageLayerProperties

/-- `mImageProperty`, setter. -/
def setImageSource (mDocument : Option MapDocument) (value : String) :
    Option (List (UndoCall LayerCommand)) :=
  (LayerProperties.selectedLayersOfType mDocument TypeFlag.ImageLayerType).map
    (fun imageLayers => [UndoCall.push (LayerCommand.ChangeImageLayerImageSource imageLayers value)])

/-- `mTransparentColorProperty`, setter. -/
def setTransparentColor (mDocument : Option MapDocument) (value : Nat) :
    Option (List (UndoCall LayerCommand)) :=
  (LayerProperties.selectedLayersOfType mDocument TypeFlag.ImageLayerType).map
    (fun imageLayers =>
      [UndoCall.push (LayerCommand.ChangeImageLayerTransparentColor imageLayers value)])

/-- `ImageLayer::RepeatX`. -/
def RepeatX : Nat := 1

/-- `ImageLayer::RepeatY`. -/
def RepeatY : Nat := 2

/-- `mRepeatProperty`, setter; `imageLayer` is the layer the view displays and
`value` the repetition flags. -/
def setRepeat (mDocument : Option MapDocument) (imageLayer : Layer) (value : Nat) :
    Option (List (UndoCall LayerCommand)) :=
  let repeatX : Bool := decide (value &&& RepeatX ≠ 0)
  let repeatY : Bool := decide (value &&& RepeatY ≠ 0)
  (LayerProperties.selectedLayersOfType mDocument TypeFlag.ImageLayerType).map
    (fun imageLayers =>
      (if repeatX ≠ imageLayer.repeatX then
          [UndoCall.push (LayerCommand.ChangeImageLayerRepeatX imageLayers repeatX)]
        else [])
      ++
      (if repeatY ≠ imageLayer.repeatY then
          [UndoCall.push (LayerCommand.ChangeImageLayerRepeatY imageLayers repeatY)]
        else []))

end ImageLayerProperties

namespace ObjectGroupProperties

/-- `mColorProperty`, setter. -/
def setColor (mDocument : Option MapDocument) (value : Nat) :
    Option (List (UndoCall LayerCommand)) :=
  (LayerProperties.selectedLayersOfType mDocument TypeFlag.ObjectGroupType).map
    (fun objectGroups => [UndoCall.push (LayerCommand.ChangeObjectGroupColor objectGroups value)])

/-- `mDrawOrderProperty`, setter. -/
def setDrawOrder (mDocument : Option MapDocument) (value : DrawOrder) :
    Option (List (UndoCall LayerCommand)) :=
  (LayerProperties.selectedLayersOfType mDocument TypeFlag.ObjectGroupType).map
    (fun objectGroups =>
      [UndoCall.push (LayerCommand.ChangeObjectGroupDrawOrder objectGroups value)])

end ObjectGroupProperties

/-! ## CustomProperties: change notifications and the update guard -/

/-- `propertyValueAffected`; a null `currentObject` is `none`. -/
def propertyValueAffected (currentObject : Option Object) (changedObject : Object)
    (propertyName : String) : Bool :=
  if currentObject.map Object.id = some changedObject.id then true
  else
    match currentObject with
    | some current =>
      if current.typeId = TypeId.MapObjectType ∧ changedObject.typeId = TypeId.TileType then
        let tile := current.cellTile
        if tile = some changedObject.id ∧ ¬ current.hasProperty propertyName then true
        else false
      else false
    | none => false

/-- `objectPropertiesRelevant`. -/
def objectPropertiesRelevant (document : Document) (object : Object) : Bool :=
  match document.currentObject with
  | none => false
  | some currentObject =>
    if currentObject.id = object.id then true
    else if currentObject.typeId = TypeId.MapObjectType ∧
        currentObject.cellTile = some object.id then true
    else if (document.currentObjects.map Object.id).contains object.id then true
    else false

/-- The members of `CustomProperties` this file follows: the guard flag, the
value and the suggestions last handed to `setValue`, and the number of
`refresh()` calls made so far. -/
structure CustomProperties where
  mUpdating : Bool := false
  value : Properties := []
  suggestedValue : Properties := []
  refreshCalls : Nat := 0
  deriving DecidableEq, Repr

/-- The loop of `CustomProperties::refresh` over `currentObjects()`. -/
def suggestFromSelection (currentObject : Object) :
    Properties → List Object → Properties
  | suggestedProperties, [] => suggestedProperties
  | suggestedProperties, object :: rest =>
    if object.id ≠ currentObject.id then
      suggestFromSelection currentObject
        (mergeProperties suggestedProperties object.properties) rest
    else suggestFromSelection currentObject suggestedProperties rest

namespace CustomProperties

/-- `CustomProperties::refresh`; `mDocument` is `none` when null. -/
def refresh (self : CustomProperties) (mDocument : Option Document) : CustomProperties :=
  match mDocument.bind Document.currentObject, mDocument with
  | some currentObject, some document =>
    let currentObjectProperties := currentObject.properties
    let suggestedProperties :=
      suggestFromSelection currentObject [] document.currentObjects
    let suggestedProperties :=
      mergeProperties suggestedProperties currentObject.inheritedProperties
    { self with
      value := currentObjectProperties
      suggestedValue := suggestedProperties
      refreshCalls := self.refreshCalls + 1 }
  | _, _ => { self with value := [], suggestedValue := [], refreshCalls := self.refreshCalls + 1 }

/-- `CustomProperties::propertyAdded`, connected to `Document::propertyAdded`. -/
def propertyAdded (self : CustomProperties) (mDocument : Document) (object : Object)
    (_name : String) : CustomProperties :=
  if self.mUpdating then self
  else if !objectPropertiesRelevant mDocument object then self
  else self.refresh (some mDocument)

/-- `CustomProperties::propertyRemoved`. -/
def propertyRemoved (self : CustomProperties) (mDocument : Document) (object : Object)
    (_name : String) : CustomProperties :=
  if self.mUpdating then self
  else if !objectPropertiesRelevant mDocument object then self
  else self.refresh (some mDocument)

/-- `CustomProperties::propertyChanged`. -/
def propertyChanged (self : CustomProperties) (mDocument : Document) (object : Object)
    (name : String) : CustomProperties :=
  if self.mUpdating then self
  else if !propertyValueAffected mDocument.currentObject object name then self
  else self.refresh (some mDocument)

/-- `CustomProperties::propertiesChanged`. -/
def propertiesChanged (self : CustomProperties) (mDocument : Document) (object : Object) :
    CustomProperties :=
  if !objectPropertiesRelevant mDocument object then self
  else self.refresh (some mDocument)

end CustomProperties

/-- One emission of a property signal of `Document`, as connected in
`CustomProperties::setDocument`. -/
inductive PropertySignal where
  | propertyAdded (object : Object) (name : String)
  | propertyRemoved (object : Object) (name : String)
  | propertyChanged (object : Object) (name : String)
  | propertiesChanged (object : Object)
  deriving DecidableEq, Repr

/-- The three signals whose slots test `mUpdating`. -/
def PropertySignal.guarded : PropertySignal → Bool
  | .propertiesChanged _ => false
  | _ => true

namespace CustomProperties

/-- The slot run for one signal; `mDocument` is the document as it is when the
signal is emitted. -/
def deliver (self : CustomProperties) : Document × PropertySignal → CustomProperties
  | (mDocument, .propertyAdded object name) => self.propertyAdded mDocument object name
  | (mDocument, .propertyRemoved object name) => self.propertyRemoved mDocument object name
  | (mDocument, .propertyChanged object name) => self.propertyChanged mDocument object name
  | (mDocument, .propertiesChanged object) => self.propertiesChanged mDocument object

/-- Signals are delivered synchronously, in emission order. -/
def deliverAll (self : CustomProperties) (signals : List (Document × PropertySignal)) :
    CustomProperties :=
  signals.foldl deliver self

/-- `CustomProperties::setPropertyValue`.  `emitted` gives the signals the
document emits while `QUndoStack::push` applies the command (the commands are
not among the sources).  `QScopedValueRollback` sets `mUpdating` and puts the
previous value back when the block is left.  `path.first()` of an empty path
is undefined (`none`). -/
def setPropertyValue (self : CustomProperties) (mDocument : Document)
    (emitted : PropertyCommand → List (Document × PropertySignal))
    (path : List String) (value : QVariant) :
    Option (CustomProperties × List (UndoCall PropertyCommand)) :=
  let objects := mDocument.currentObjects
  if !objects.isEmpty then
    let previous := self.mUpdating
    let updating := { self with mUpdating := true }
    if path.length > 1 ∨ value.isValid then
      let command := PropertyCommand.SetProperty objects path value
      let pushed := updating.deliverAll (emitted command)
      some ({ pushed with mUpdating := previous }, [UndoCall.push command])
    else
      match path.head? with
      | none => none
      | some first =>
        let command := PropertyCommand.RemoveProperty objects first
        let pushed := updating.deliverAll (emitted command)
        some ({ pushed with mUpdating := previous }, [UndoCall.push command])
  else some (self, [])

end CustomProperties

/-! ## EditableWorld -/

/-- `QRect`, by its top-left corner and size. -/
structure QRect where
  x : Int := 0
  y : Int := 0
  width : Int := 0
  height : Int := 0
  deriving DecidableEq, Repr

/-- `World::MapEntry`. -/
structure WorldMapEntry where
  fileName : String
  rect : QRect := {}
  deriving DecidableEq, Repr

/-- A `World *`: pointer identity and the maps of the world. -/
structure World where
  id : Nat
  maps : List WorldMapEntry := []
  deriving DecidableEq, Repr

/-- Modelled from the spec: `World::mapIndex` is defined in libtiled, which is
not among the sources.  It is the index in `maps` of the entry with the given
file name, and negative when the world has no map with that file name. -/
def World.mapIndex (world : World) (fileName : String) : Int :=
  match world.maps.findIdx? (fun entry => entry.fileName = fileName) with
  | some i => i
  | none => -1

/-- The part of `WorldDocument` read by `EditableWorld`. -/
structure WorldDocument where
  world : World
  deriving DecidableEq, Repr

/-- The commands of `changeworld.h` pushed by `EditableWorld`. -/
inductive WorldCommand where
  | SetMapRectCommand (mapFileName : String) (rect : QRect)
  | AddMapCommand (mapFileName : String) (rect : QRect)
  | RemoveMapCommand (mapFileName : String)
  deriving DecidableEq, Repr

/-- The values of `ChangeEvent::Type` named in the sources; `other` stands
for the remaining values of the enumeration, declared in `changeevents.h`. -/
inductive ChangeEventType where
  | ObjectsChanged
  | LayerChanged
  | ImageLayerChanged
  | MapObjectsChanged
  | DocumentAboutToReload
  | DocumentReloaded
  | other (tag : Nat)
  deriving DecidableEq, Repr

/-- An `EditableWorld` with what its methods do to the outside: `object` is
the wrapped object of `EditableObject` (`none` when null), `document` the
world document, `errors` the messages handed to `ScriptManager::throwError`
and `undoCalls` the calls made on `document()->undoStack()`, both in order. -/
structure EditableWorld where
  object : Option World
  document : WorldDocument
  errors : List String := []
  undoCalls : List (UndoCall WorldCommand) := []
  deriving DecidableEq, Repr

namespace EditableWorld

/-- `ScriptManager::throwError`. -/
def throwScriptError (self : EditableWorld) (message : String) : EditableWorld :=
  { self with errors := self.errors ++ [message] }

/-- `document()->undoStack()->push(command)`. -/
def push (self : EditableWorld) (command : WorldCommand) : EditableWorld :=
  { self with undoCalls := self.undoCalls ++ [UndoCall.push command] }

/-- `EditableWorld::setMapRect`; `world()` is the wrapped object, and calling
through it when it is null is undefined (`none`). -/
def setMapRect (self : EditableWorld) (mapFileName : String) (rect : QRect) :
    Option EditableWorld :=
  match self.object with
  | none => none
  | some world =>
    let mapIndex := world.mapIndex mapFileName
    if mapIndex < 0 then some (self.throwScriptError "Map not found in this world")
    else some (self.push (WorldCommand.SetMapRectCommand mapFileName rect))

/-- `EditableWorld::removeMap(const QString &)`. -/
def removeMap (self : EditableWorld) (mapFileName : String) : Option EditableWorld :=
  match self.object with
  | none => none
  | some world =>
    let mapIndex := world.mapIndex mapFileName
    if mapIndex < 0 then some (self.throwScriptError "Map not found in this world")
    else some (self.push (WorldCommand.RemoveMapCommand mapFileName))

/-- `EditableWorld::addMap(const QString &, const QRect &)`.  `worldForMap` is
`WorldManager::instance().worldForMap`, which yields the loaded world that
contains the map, or null (`none`). -/
def addMap (worldForMap : String → Option World) (self : EditableWorld)
    (mapFileName : String) (rect : QRect) : EditableWorld :=
  if mapFileName.isEmpty then self.throwScriptError "Invalid argument"
  else if (worldForMap mapFileName).isSome then
    self.throwScriptError "Map is already part of a loaded world"
  else self.push (WorldCommand.AddMapCommand mapFileName rect)

/-- `EditableWorld::documentChanged`. -/
def documentChanged (self : EditableWorld) (eventType : ChangeEventType) : EditableWorld :=
  match eventType with
  | .DocumentAboutToReload => { self with object := none }
  | .DocumentReloaded => { self with object := some self.document.world }
  | _ => self

end EditableWorld

/-! ## PropertiesWidget: adding a property -/

/-- `PropertiesWidget::addProperty`.  `SetProperty` is constructed from the
name, which is the path holding that one name. -/
def addProperty (mDocument : Document) (name : String) (value : QVariant) :
    List (UndoCall PropertyCommand) :=
  if name.isEmpty then []
  else
    match mDocument.currentObject with
    | none => []
    | some object =>
      if !object.hasProperty name then
        [UndoCall.push (PropertyCommand.SetProperty mDocument.currentObjects [name] value)]
      else []

/-! ## Offsets and positions: edits of one coordinate -/

/-- `LayerProperties::mOffsetProperty`, setter; `layer` is the layer the view
displays. -/
def LayerProperties.setOffset (mapDocument : MapDocument) (layer : Layer)
    (value : qreal × qreal) : List (UndoCall LayerCommand) :=
  let oldValue := layer.offset
  let changedX : Bool := decide (oldValue.1 ≠ value.1)
  let changedY : Bool := decide (oldValue.2 ≠ value.2)
  let offsets := mapDocument.selectedLayers.map Layer.offset
  let offsets :=
    if changedX then offsets.map (fun offset => (value.1, offset.2))
    else if changedY then offsets.map (fun offset => (offset.1, value.2))
    else offsets
  [UndoCall.push (LayerCommand.SetLayerOffset mapDocument.selectedLayers offsets)]

/-- The body of the loop in the setter of
`MapObjectProperties::mPositionProperty`: the state appended for one
object. -/
def positionState (changedX changedY : Bool) (value : qreal × qreal) (object : MapObject) :
    TransformState :=
  let state := TransformState.ofMapObject object
  let position := state.position
  let position := if changedX then (value.1, position.2) else position
  let position := if changedY then (position.1, value.2) else position
  { state with position := position }

/-- `MapObjectProperties::mPositionProperty`, setter; `mapObject` is the
object the view displays. -/
def MapObjectProperties.setPosition (mapDocument : MapDocument) (mapObject : MapObject)
    (value : qreal × qreal) : List (UndoCall MapObjectCommand) :=
  let oldValue := mapObject.position
  let changedX : Bool := decide (oldValue.1 ≠ value.1)
  let changedY : Bool := decide (oldValue.2 ≠ value.2)
  let objects := mapDocument.selectedObjects
  let states := objects.map (positionState changedX changedY value)
  [UndoCall.push (MapObjectCommand.TransformMapObjects objects states)]

/-! ## CustomProperties: change events -/

/-- `ObjectsChangeEvent::ClassProperty`, the bit of `properties` for the
class of an object (`changeevents.h`). -/
def ObjectsChangeEvent.ClassProperty : Nat := 1

/-- A `ChangeEvent`.  `objects` and `properties` are the members of
`ObjectsChangeEvent`, read only when `type` is `ObjectsChanged`. -/
structure ChangeEvent where
  type : ChangeEventType
  objects : List Object := []
  properties : Nat := 0
  /-- `MapObjectsChangeEvent::mapObjects`, read only when `type` is
  `MapObjectsChanged`. -/
  mapObjects : List MapObject := []
  /-- `MapObjectsChangeEvent::properties`, a `MapObject::ChangedProperties`
  value as the list of the flags set in it. -/
  changedProperties : List MapObjectProperty := []
  deriving DecidableEq, Repr

/-- `CustomProperties::onChanged`, connected to `Document::changed`. -/
def CustomProperties.onChanged (self : CustomProperties) (mDocument : Document)
    (change : ChangeEvent) : CustomProperties :=
  if change.type ≠ ChangeEventType.ObjectsChanged then self
  else
    match mDocument.currentObject with
    | none => self
    | some object =>
      if change.properties &&& ObjectsChangeEvent.ClassProperty ≠ 0 then
        if (change.objects.map Object.id).contains object.id then self.refresh (some mDocument)
        else if object.typeId = TypeId.MapObjectType then
          match object.cellTile with
          | some tile =>
            if object.className.isEmpty ∧ (change.objects.map Object.id).contains tile then
              self.refresh (some mDocument)
            else self
          | none => self
        else self
      else self

/-! ## EditableWorld: moving a map -/

/-- An `EditableMap *`, by the file name of its map. -/
structure EditableMap where
  fileName : String
  /-- The size of `MapRenderer::create(map())->mapBoundingRect()`, width and
  height. -/
  boundingSize : Int × Int := (0, 0)
  deriving DecidableEq, Repr

/-- `QRect::moveTo`: the top-left corner moves, the size stays. -/
def QRect.moveTo (rect : QRect) (x y : Int) : QRect :=
  { rect with x := x, y := y }

/-- The message of `ScriptManager::throwNullArgError`, which is raised through
`throwError` (`scriptmanager.cpp`, not among the sources). -/
def nullArgMessage (argNumber : Nat) : String :=
  "Argument " ++ toString argNumber ++ " is undefined or the wrong type"

namespace EditableWorld

/-- `ScriptManager::throwNullArgError`. -/
def throwNullArgError (self : EditableWorld) (argNumber : Nat) : EditableWorld :=
  self.throwScriptError (nullArgMessage argNumber)

/-- `EditableWorld::setMapPos`; a null `map` is `none`.  `maps.at(mapIndex)`
outside the list is undefined (`none`), as is calling through a null
`world()`. -/
def setMapPos (self : EditableWorld) (map : Option EditableMap) (x y : Int) :
    Option EditableWorld :=
  match map with
  | none => some (self.throwNullArgError 0)
  | some map =>
    match self.object with
    | none => none
    | some world =>
      let mapIndex := world.mapIndex map.fileName
      if mapIndex < 0 then some (self.throwScriptError "Map not found in this world")
      else
        match world.maps[mapIndex.toNat]? with
        | none => none
        | some entry =>
          let rect := entry.rect
          let rect := rect.moveTo x y
          some (self.push (WorldCommand.SetMapRectCommand map.fileName rect))

end EditableWorld

/-! ## Map objects: geometry and flipping edits -/

/-- `QRectF`, by its top-left corner and size. -/
structure QRectF where
  x : qreal := 0
  y : qreal := 0
  width : qreal := 0
  height : qreal := 0
  deriving DecidableEq, Repr

/-- `MapObject::bounds()`, declared in libtiled: the rect of the object's
position and size. -/
def MapObject.bounds (object : MapObject) : QRectF :=
  { x := object.position.1, y := object.position.2,
    width := object.size.1, height := object.size.2 }

/-- The body of the loop in the setter of `MapObjectProperties::mBoundsProperty`:
the state appended for one object. -/
def boundsState (changedX changedY changedWidth changedHeight : Bool) (value : QRectF)
    (object : MapObject) : TransformState :=
  let state := TransformState.ofMapObject object
  let position := state.position
  let size := state.size
  let position := if changedX then (value.x, position.2) else position
  let position := if changedY then (position.1, value.y) else position
  let size := if changedWidth && object.hasDimensions then (value.width, size.2) else size
  let size := if changedHeight && object.hasDimensions then (size.1, value.height) else size
  { state with position := position, size := size }

/-- `MapObjectProperties::mBoundsProperty`, setter; `mapObject` is the object
the view displays. -/
def MapObjectProperties.setBounds (mapDocument : MapDocument) (mapObject : MapObject)
    (value : QRectF) : List (UndoCall MapObjectCommand) :=
  let oldValue := mapObject.bounds
  let changedX : Bool := decide (oldValue.x ≠ value.x)
  let changedY : Bool := decide (oldValue.y ≠ value.y)
  let changedWidth : Bool := decide (oldValue.width ≠ value.width)
  let changedHeight : Bool := decide (oldValue.height ≠ value.height)
  let objects := mapDocument.selectedObjects
  let states := objects.map (boundsState changedX changedY changedWidth changedHeight value)
  [UndoCall.push (MapObjectCommand.TransformMapObjects objects states)]

/-- The body of the loop in the setter of
`MapObjectProperties::mFlippingProperty`: the `MapObjectCell` appended for one
object. -/
def flippedCell (changedHorizontally changedVertically : Bool) (value : Nat)
    (object : MapObject) : MapObject × Cell :=
  let cell := object.cell
  let cell :=
    if changedHorizontally then cell.setFlippedHorizontally (decide (value &&& 1 ≠ 0)) else cell
  let cell :=
    if changedVertically then cell.setFlippedVertically (decide (value &&& 2 ≠ 0)) else cell
  (object, cell)

/-- `MapObjectProperties::mFlippingProperty`, setter.  The text given to the
command with `setText` is not followed. -/
def MapObjectProperties.setFlipping (mapDocument : MapDocument) (mapObject : MapObject)
    (value : Nat) : List (UndoCall MapObjectCommand) :=
  let oldValue := mapObject.cell.flags
  let changedHorizontally : Bool := decide ((oldValue &&& 1) ≠ (value &&& 1))
  let changedVertically : Bool := decide ((oldValue &&& 2) ≠ (value &&& 2))
  let objectChanges :=
    mapDocument.selectedObjects.map (flippedCell changedHorizontally changedVertically value)
  [UndoCall.push (MapObjectCommand.ChangeMapObjectCells objectChanges)]

namespace FlippingProperty

/-- `syncEditor` of `FlippingProperty::createEditor`: the checked states given
to the two buttons, horizontal first. -/
def syncEditor (v : Nat) : Bool × Bool :=
  (decide (v &&& Cell.FlippedHorizontally ≠ 0), decide (v &&& Cell.FlippedVertically ≠ 0))

/-- `syncProperty` of `FlippingProperty::createEditor`: the flags handed to
`setValue` for the checked states of the two buttons. -/
def syncProperty (flipHorizontally flipVertically : Bool) : Nat :=
  let flags := 0
  let flags := if flipHorizontally then flags ||| Cell.FlippedHorizontally else flags
  let flags := if flipVertically then flags ||| Cell.FlippedVertically else flags
  flags

end FlippingProperty

/-! ## MapObjectProperties: change events -/

/-- The members of `MapObjectProperties` whose `valueChanged` is emitted by
`onChanged`. -/
inductive MapObjectMember where
  | mNameProperty
  | mVisibleProperty
  | mPositionProperty
  | mBoundsProperty
  | mRotationProperty
  | mFlippingProperty
  | mTextProperty
  | mTextFontProperty
  | mTextAlignmentProperty
  | mTextWordWrapProperty
  | mTextColorProperty
  deriving DecidableEq, Repr

/-- `change.properties & flag`. -/
def ChangeEvent.has (change : ChangeEvent) (flag : MapObjectProperty) : Bool :=
  change.changedProperties.contains flag

/-- `MapObjectProperties::onChanged`: the members whose `valueChanged` is
emitted, in order; `mapObject` is the object the view displays. -/
def MapObjectProperties.onChanged (mapObject : MapObject) (event : ChangeEvent) :
    List MapObjectMember :=
  if event.type ≠ ChangeEventType.MapObjectsChanged then []
  else if !(event.mapObjects.map MapObject.id).contains mapObject.id then []
  else
    (if event.has MapObjectProperty.NameProperty then [MapObjectMember.mNameProperty] else [])
    ++ (if event.has MapObjectProperty.VisibleProperty then [MapObjectMember.mVisibleProperty]
        else [])
    ++ (if event.has MapObjectProperty.PositionProperty then
          [MapObjectMember.mPositionProperty, MapObjectMember.mBoundsProperty]
        else [])
    ++ (if event.has MapObjectProperty.SizeProperty then [MapObjectMember.mBoundsProperty]
        else [])
    ++ (if event.has MapObjectProperty.RotationProperty then [MapObjectMember.mRotationProperty]
        else [])
    ++ (if event.has MapObjectProperty.CellProperty then [MapObjectMember.mFlippingProperty]
        else [])
    ++ (if event.has MapObjectProperty.TextProperty then [MapObjectMember.mTextProperty]
        else [])
    ++ (if event.has MapObjectProperty.TextFontProperty then [MapObjectMember.mTextFontProperty]
        else [])
    ++ (if event.has MapObjectProperty.TextAlignmentProperty then
          [MapObjectMember.mTextAlignmentProperty]
        else [])
    ++ (if event.has MapObjectProperty.TextWordWrapProperty then
          [MapObjectMember.mTextWordWrapProperty]
        else [])
    ++ (if event.has MapObjectProperty.TextColorProperty then
          [MapObjectMember.mTextColorProperty]
        else [])

/-! ## PropertiesWidget: renaming a property -/

/-- `PropertiesWidget::renameProperty`: the slot connected to
`QInputDialog::textValueSelected`, run with the name the dialog delivers. -/
def renameProperty (mDocument : Document) (name newName : String) :
    List (UndoCall PropertyCommand) :=
  if newName.isEmpty then []
  else if newName = name then []
  else [UndoCall.push (PropertyCommand.RenameProperty mDocument.currentObjects name newName)]

/-! ## Enabled states of the property groups -/

/-- `Document::DocumentType`. -/
inductive DocumentType where
  | MapDocumentType
  | TilesetDocumentType
  | ProjectDocumentType
  | WorldDocumentType
  deriving DecidableEq, Repr

/-- `qobject_cast<TilesetDocument*>(mDocument)` is non-null exactly for a
tileset document. -/
def DocumentType.isTilesetDocument (documentType : DocumentType) : Bool :=
  decide (documentType = DocumentType.TilesetDocumentType)

/-- The enabled states of the members of `TileProperties`.  A property is
enabled until `setEnabled(false)` is called on it; `mIdProperty` is disabled
in the constructor. -/
structure TileProperties where
  mIdProperty : Bool := false
  mClassProperty : Bool := true
  mImageProperty : Bool := true
  mRectangleProperty : Bool := true
  mProbabilityProperty : Bool := true
  deriving DecidableEq, Repr

/-- `TileProperties::updateEnabledState`; `isCollection` is
`tile()->tileset()->isCollection()`. -/
def TileProperties.updateEnabledState (self : TileProperties) (documentType : DocumentType)
    (isCollection : Bool) : TileProperties :=
  let hasTilesetDocument := documentType.isTilesetDocument
  { self with
    mClassProperty := hasTilesetDocument
    mImageProperty := hasTilesetDocument && isCollection
    mRectangleProperty := hasTilesetDocument && isCollection
    mProbabilityProperty := hasTilesetDocument }

/-- The enabled states of the members of `WangSetProperties`. -/
structure WangSetProperties where
  mNameProperty : Bool := true
  mClassProperty : Bool := true
  mTypeProperty : Bool := true
  mColorCountProperty : Bool := true
  deriving DecidableEq, Repr

/-- `WangSetProperties::updateEnabledState`. -/
def WangSetProperties.updateEnabledState (self : WangSetProperties)
    (documentType : DocumentType) : WangSetProperties :=
  let hasTilesetDocument := documentType.isTilesetDocument
  { self with
    mNameProperty := hasTilesetDocument
    mTypeProperty := hasTilesetDocument
    mColorCountProperty := hasTilesetDocument }

/-- The enabled states of the members of `WangColorProperties`. -/
structure WangColorProperties where
  mNameProperty : Bool := true
  mClassProperty : Bool := true
  mColorProperty : Bool := true
  mProbabilityProperty : Bool := true
  deriving DecidableEq, Repr

/-- `WangColorProperties::updateEnabledState`. -/
def WangColorProperties.updateEnabledState (self : WangColorProperties)
    (documentType : DocumentType) : WangColorProperties :=
  let hasTilesetDocument := documentType.isTilesetDocument
  { self with
    mNameProperty := hasTilesetDocument
    mClassProperty := hasTilesetDocument
    mColorProperty := hasTilesetDocument
    mProbabilityProperty := hasTilesetDocument }

/-- `Map::Orientation`. -/
inductive Orientation where
  | Unknown
  | Orthogonal
  | Isometric
  | Staggered
  | Hexagonal
  deriving DecidableEq, Repr

/-- `Map::LayerDataFormat`. -/
inductive LayerDataFormat where
  | XML
  | Base64
  | Base64Gzip
  | Base64Zlib
  | Base64Zstandard
  | CSV
  deriving DecidableEq, Repr

/-- The members of `Tiled::Map` read by `MapProperties::updateEnabledState`. -/
structure Map where
  orientation : Orientation := Orientation.Orthogonal
  infinite : Bool := false
  layerDataFormat : LayerDataFormat := LayerDataFormat.CSV
  deriving DecidableEq, Repr

/-- The enabled states of the members of `MapProperties` that
`updateEnabledState` sets. -/
structure MapProperties where
  mHexSideLengthProperty : Bool := true
  mStaggerAxisProperty : Bool := true
  mStaggerIndexProperty : Bool := true
  mRenderOrderProperty : Bool := true
  mChunkSizeProperty : Bool := true
  mCompressionLevelProperty : Bool := true
  deriving DecidableEq, Repr

/-- `MapProperties::updateEnabledState`. -/
def MapProperties.updateEnabledState (self : MapProperties) (map : Map) : MapProperties :=
  let orientation := map.orientation
  let stagger : Bool :=
    decide (orientation = Orientation.Staggered) || decide (orientation = Orientation.Hexagonal)
  let self :=
    { self with
      mHexSideLengthProperty := decide (orientation = Orientation.Hexagonal)
      mStaggerAxisProperty := stagger
      mStaggerIndexProperty := stagger
      mRenderOrderProperty := decide (orientation = Orientation.Orthogonal)
      mChunkSizeProperty := map.infinite }
  match map.layerDataFormat with
  | .XML => { self with mCompressionLevelProperty := false }
  | .Base64 => { self with mCompressionLevelProperty := false }
  | .CSV => { self with mCompressionLevelProperty := false }
  | .Base64Gzip => { self with mCompressionLevelProperty := true }
  | .Base64Zlib => { self with mCompressionLevelProperty := true }
  | .Base64Zstandard => { self with mCompressionLevelProperty := true }

/-! ## EditableWorld: adding an open map -/

/-- `EditableWorld::addMap(EditableMap *, int, int)`; a null `map` is
`none`. -/
def EditableWorld.addMapAt (worldForMap : String → Option World) (self : EditableWorld)
    (map : Option EditableMap) (x y : Int) : EditableWorld :=
  match map with
  | none => self.throwNullArgError 0
  | some map =>
    if map.fileName.isEmpty then self.throwScriptError "Can't add unsaved map to a world"
    else
      let size := map.boundingSize
      self.addMap worldForMap map.fileName { x := x, y := y, width := size.1, height := size.2 }

/-! ## Lemmas on property maps and call sequences -/

theorem Properties.value_insert (p : Properties) (k : String) (v : QVariant) (n : String) :
    Properties.value (Properties.insert p k v) n =
      if n = k then some v else Properties.value p n := by
  induction p with
  | nil => simp [Properties.insert, Properties.value]
  | cons e rest ih =>
    obtain ⟨k0, w⟩ := e
    unfold Properties.insert
    by_cases h1 : k = k0
    · subst h1
      by_cases h3 : n = k <;> simp [Properties.value, h3]
    · by_cases h2 : k.data < k0.data
      · simp [h1, h2, Properties.value]
      · simp only [h1, h2, if_false, Properties.value, ih]
        by_cases h3 : n = k0
        · have h4 : ¬ k0 = k := fun h => h1 h.symm
          simp [h3, h4]
        · simp [h3]

theorem value_mergeProperties (source target : Properties) (n : String) :
    Properties.value (mergeProperties target source) n =
      (Properties.value target n).orElse (fun _ => Properties.value source n) := by
  induction source generalizing target with
  | nil =>
    unfold mergeProperties
    cases Properties.value target n <;> simp [Properties.value]
  | cons e rest ih =>
    obtain ⟨k, v⟩ := e
    unfold mergeProperties
    by_cases hc : Properties.contains target k = true
    · rw [if_pos hc, ih]
      by_cases hn : n = k
      · subst hn
        simp only [Properties.contains] at hc
        cases hv : Properties.value target n with
        | none => simp [hv] at hc
        | some w => simp
      · simp [hn, Properties.value]
    · rw [if_neg hc, ih, Properties.value_insert]
      by_cases hn : n = k
      · subst hn
        simp only [Properties.contains] at hc
        cases hv : Properties.value target n with
        | none => simp [Properties.value]
        | some w => simp [hv] at hc
      · simp [hn, Properties.value]

theorem mergeProperties_nil (target : Properties) : mergeProperties target [] = target := by
  unfold mergeProperties
  rfl

theorem pasteCommands_eq (pasted : Properties) (objects : List Object) :
    pasteCommands pasted objects =
      (objects.filter (fun o => decide (mergeProperties o.properties pasted ≠ o.properties))).map
        (fun o => PropertyCommand.ChangeProperties o (mergeProperties o.properties pasted)) := by
  induction objects with
  | nil => simp [pasteCommands]
  | cons o rest ih =>
    unfold pasteCommands
    by_cases h : o.properties = mergeProperties o.properties pasted
    · have h2 : mergeProperties o.properties pasted = o.properties := h.symm
      simp [h2, ih]
    · have h2 : ¬ mergeProperties o.properties pasted = o.properties := fun e => h e.symm
      simp [h, h2, ih]

theorem pushedCommands_map_push {α : Type} (cs : List α) (tail : List (UndoCall α)) :
    pushedCommands (cs.map UndoCall.push ++ tail) = cs ++ pushedCommands tail := by
  induction cs with
  | nil => simp
  | cons c rest ih => simp [pushedCommands, ih]

theorem pushedCommands_group {α : Type} (text : String) (cs : List α) :
    pushedCommands (UndoCall.beginMacro text :: (cs.map UndoCall.push ++ [UndoCall.endMacro]))
      = cs := by
  simp [pushedCommands, pushedCommands_map_push]

theorem run_pushes_recording {α : Type} (entries : List (HistoryEntry α)) (text : String)
    (done cs : List α) (depth : Nat) :
    QUndoStack.run { entries := entries, recording := some (text, done), depth := depth }
        (cs.map UndoCall.push)
      = { entries := entries, recording := some (text, done ++ cs), depth := depth } := by
  induction cs generalizing done with
  | nil => simp [QUndoStack.run]
  | cons c rest ih =>
    have h := ih (done ++ [c])
    simp only [QUndoStack.run] at h
    simp [QUndoStack.run, QUndoStack.call, h]

theorem run_group {α : Type} (entries : List (HistoryEntry α)) (text : String) (cs : List α) :
    QUndoStack.run { entries := entries, recording := none, depth := 0 }
        (UndoCall.beginMacro text :: (cs.map UndoCall.push ++ [UndoCall.endMacro]))
      = { entries := entries ++ [HistoryEntry.group text cs], recording := none, depth := 0 } := by
  have h := run_pushes_recording entries text [] cs 1
  simp only [QUndoStack.run] at h
  simp [QUndoStack.run, QUndoStack.call, List.foldl_append, h]

theorem pasteProperties_eq (clipboard : Properties) (mDocument : Document) :
    pasteProperties clipboard mDocument =
      if clipboard = [] ∨ pasteCommands clipboard mDocument.currentObjects = [] then []
      else
        UndoCall.beginMacro "Paste Property/Properties" ::
          ((pasteCommands clipboard mDocument.currentObjects).map UndoCall.push
            ++ [UndoCall.endMacro]) := by
  unfold pasteProperties
  by_cases hc : clipboard = []
  · simp [hc]
  · by_cases ho : mDocument.currentObjects = []
    · simp [hc, ho, pasteCommands]
    · by_cases hp : pasteCommands clipboard mDocument.currentObjects = []
      · simp [hc, ho, hp]
      · simp [hc, ho, hp, translate]

theorem mem_pasteCommands (pasted : Properties) (objects : List Object) (object : Object)
    (properties : Properties) :
    PropertyCommand.ChangeProperties object properties ∈ pasteCommands pasted objects ↔
      object ∈ objects ∧ mergeProperties object.properties pasted ≠ object.properties ∧
        properties = mergeProperties object.properties pasted := by
  rw [pasteCommands_eq]
  simp only [List.mem_map, List.mem_filter, decide_eq_true_eq]
  constructor
  · rintro ⟨o, ⟨ho, hne⟩, heq⟩
    injection heq with h1 h2
    subst h1
    exact ⟨ho, hne, h2.symm⟩
  · rintro ⟨ho, hne, hp⟩
    exact ⟨object, ⟨ho, hne⟩, by rw [hp]⟩

theorem push_mem_pasteProperties (clipboard : Properties) (mDocument : Document)
    (c : PropertyCommand) :
    UndoCall.push c ∈ pasteProperties clipboard mDocument ↔
      clipboard ≠ [] ∧ c ∈ pasteCommands clipboard mDocument.currentObjects := by
  rw [pasteProperties_eq]
  by_cases hc : clipboard = []
  · simp [hc]
  · by_cases hp : pasteCommands clipboard mDocument.currentObjects = []
    · simp [hc, hp]
    · simp [hc, hp]

/-! ## Paste -/

/-- C1: paste is additive.  Whenever `pasteProperties` pushes a
`ChangeProperties` command for an object, that object is selected, the
clipboard is non-empty, and the property set handed to the command is
`mergeProperties(own, pasted)`: every name defined on the object keeps its
own value, and every name the object lacks has the value the clipboard gives
it (none when the clipboard lacks it too). -/
theorem pasteProperties_additive (clipboard : Properties) (mDocument : Document)
    (object : Object) (properties : Properties)
    (h : UndoCall.push (PropertyCommand.ChangeProperties object properties)
      ∈ pasteProperties clipboard mDocument) :
    object ∈ mDocument.currentObjects ∧ clipboard ≠ [] ∧
      properties = mergeProperties object.properties clipboard ∧
      (∀ name v, Properties.value object.properties name = some v →
        Properties.value properties name = some v) ∧
      (∀ name, Properties.value object.properties name = none →
        Properties.value properties name = Properties.value clipboard name) := by
  rw [push_mem_pasteProperties, mem_pasteCommands] at h
  obtain ⟨hc, ho, _, hp⟩ := h
  refine ⟨ho, hc, hp, ?_, ?_⟩
  · intro name v hv
    rw [hp, value_mergeProperties, hv]
    rfl
  · intro name hv
    rw [hp, value_mergeProperties, hv]
    rfl

/-- The example of C1: own `{x: 1}` and pasted `{x: 2, y: 3}` give
`{x: 1, y: 3}`. -/
theorem pasteProperties_additive_witness :
    UndoCall.push (PropertyCommand.ChangeProperties
        { id := 1, properties := [("x", QVariant.int 1)] }
        [("x", QVariant.int 1), ("y", QVariant.int 3)])
      ∈ pasteProperties [("x", QVariant.int 2), ("y", QVariant.int 3)]
          { currentObjects := [{ id := 1, properties := [("x", QVariant.int 1)] }] } ∧
    Properties.value [("x", QVariant.int 1), ("y", QVariant.int 3)] "x" = some (QVariant.int 1) ∧
    Properties.value [("x", QVariant.int 1), ("y", QVariant.int 3)] "y" = some (QVariant.int 3) :=
  have h := pasteProperties_additive [("x", QVariant.int 2), ("y", QVariant.int 3)]
    { currentObjects := [{ id := 1, properties := [("x", QVariant.int 1)] }] }
    { id := 1, properties := [("x", QVariant.int 1)] }
    [("x", QVariant.int 1), ("y", QVariant.int 3)] (by decide)
  ⟨by decide, h.2.2.2.1 "x" (QVariant.int 1) (by decide),
    (h.2.2.2.2 "y" (by decide)).trans (by decide)⟩

/-- C2: `pasteProperties` makes at most one history entry.  If the clipboard
is non-empty and some selected object's set would change under the merge, the
calls are one `beginMacro`, then the pushes of all the `ChangeProperties`
commands, then one `endMacro`, and on a stack with no group open they add
exactly one entry, the group holding all those commands.  Otherwise (empty
clipboard, empty selection, or no object would change) no call is made. -/
theorem pasteProperties_one_entry (clipboard : Properties) (mDocument : Document) :
    ((clipboard ≠ [] ∧ ∃ object ∈ mDocument.currentObjects,
        mergeProperties object.properties clipboard ≠ object.properties) →
      pasteCommands clipboard mDocument.currentObjects ≠ [] ∧
      pasteProperties clipboard mDocument =
        UndoCall.beginMacro "Paste Property/Properties" ::
          ((pasteCommands clipboard mDocument.currentObjects).map UndoCall.push
            ++ [UndoCall.endMacro]) ∧
      ∀ entries : List (HistoryEntry PropertyCommand),
        QUndoStack.run { entries := entries, recording := none, depth := 0 }
            (pasteProperties clipboard mDocument) =
          { entries := entries ++ [HistoryEntry.group "Paste Property/Properties"
              (pasteCommands clipboard mDocument.currentObjects)],
            recording := none, depth := 0 }) ∧
    ((clipboard = [] ∨ mDocument.currentObjects = [] ∨
        ∀ object ∈ mDocument.currentObjects,
          mergeProperties object.properties clipboard = object.properties) →
      pasteProperties clipboard mDocument = []) := by
  constructor
  · rintro ⟨hc, o, ho, hne⟩
    have hmem := (mem_pasteCommands clipboard mDocument.currentObjects o
      (mergeProperties o.properties clipboard)).2 ⟨ho, hne, rfl⟩
    have hp : pasteCommands clipboard mDocument.currentObjects ≠ [] :=
      List.ne_nil_of_mem hmem
    have heq := pasteProperties_eq clipboard mDocument
    simp only [hc, hp, or_self, if_false] at heq
    refine ⟨hp, heq, ?_⟩
    intro entries
    rw [heq, run_group]
  · intro h
    rw [pasteProperties_eq]
    have : clipboard = [] ∨ pasteCommands clipboard mDocument.currentObjects = [] := by
      rcases h with h | h | h
      · exact Or.inl h
      · right
        rw [h]
        rfl
      · right
        rw [pasteCommands_eq, List.map_eq_nil_iff, List.filter_eq_nil_iff]
        intro o ho
        simp [h o ho]
    simp [this]

/-- C2 at a concrete paste: two objects change, one does not; the history
gains one group with the two commands. -/
theorem pasteProperties_one_entry_witness :
    QUndoStack.run { entries := [], recording := none, depth := 0 }
        (pasteProperties [("y", QVariant.int 3)]
          { currentObjects := [{ id := 1 }, { id := 2, properties := [("y", QVariant.int 0)] },
              { id := 3, properties := [("x", QVariant.int 1)] }] }) =
      { entries := [HistoryEntry.group "Paste Property/Properties"
          [PropertyCommand.ChangeProperties { id := 1 } [("y", QVariant.int 3)],
            PropertyCommand.ChangeProperties { id := 3, properties := [("x", QVariant.int 1)] }
              [("x", QVariant.int 1), ("y", QVariant.int 3)]]],
        recording := none, depth := 0 } ∧
    pasteProperties [("y", QVariant.int 3)]
      { currentObjects := [{ id := 2, properties := [("y", QVariant.int 0)] }] } = [] :=
  ⟨((pasteProperties_one_entry [("y", QVariant.int 3)]
      { currentObjects := [{ id := 1 }, { id := 2, properties := [("y", QVariant.int 0)] },
          { id := 3, properties := [("x", QVariant.int 1)] }] }).1
      ⟨by decide, { id := 1 }, by decide, by decide⟩).2.2 [],
    (pasteProperties_one_entry [("y", QVariant.int 3)]
      { currentObjects := [{ id := 2, properties := [("y", QVariant.int 0)] }] }).2
      (Or.inr (Or.inr (by decide)))⟩

/-- C3: each target merges independently.  The commands `pasteProperties`
pushes are, in selection order, one `ChangeProperties` for every selected
object whose merged set differs from its own set; the set handed over is
`mergeProperties` of that object's own properties and the clipboard, a
function of these two alone; an object whose set the merge leaves unchanged
gets no command. -/
theorem pasteProperties_independent (clipboard : Properties) (mDocument : Document) :
    pushedCommands (pasteProperties clipboard mDocument) =
      (mDocument.currentObjects.filter
          (fun o => decide (mergeProperties o.properties clipboard ≠ o.properties))).map
        (fun o => PropertyCommand.ChangeProperties o (mergeProperties o.properties clipboard)) ∧
    (∀ (object : Object) (properties : Properties),
      PropertyCommand.ChangeProperties object properties
          ∈ pushedCommands (pasteProperties clipboard mDocument) ↔
        object ∈ mDocument.currentObjects ∧
          mergeProperties object.properties clipboard ≠ object.properties ∧
          properties = mergeProperties object.properties clipboard) := by
  have key : pushedCommands (pasteProperties clipboard mDocument) =
      pasteCommands clipboard mDocument.currentObjects := by
    rw [pasteProperties_eq]
    by_cases hc : clipboard = []
    · subst hc
      have : pasteCommands [] mDocument.currentObjects = [] := by
        rw [pasteCommands_eq]
        simp [mergeProperties_nil]
      simp [this, pushedCommands]
    · by_cases hp : pasteCommands clipboard mDocument.currentObjects = []
      · simp [hp, pushedCommands]
      · simp only [hc, hp, or_self, if_false]
        exact pushedCommands_group _ _
  refine ⟨by rw [key, pasteCommands_eq], ?_⟩
  intro object properties
  rw [key]
  exact mem_pasteCommands clipboard mDocument.currentObjects object properties

/-- C3 at a concrete paste onto three objects: the second already defines the
pasted name and gets no command. -/
theorem pasteProperties_independent_witness :
    PropertyCommand.ChangeProperties { id := 3, properties := [("x", QVariant.int 1)] }
        [("x", QVariant.int 1), ("y", QVariant.int 3)]
      ∈ pushedCommands (pasteProperties [("y", QVariant.int 3)]
          { currentObjects := [{ id := 1 }, { id := 2, properties := [("y", QVariant.int 0)] },
              { id := 3, properties := [("x", QVariant.int 1)] }] }) :=
  ((pasteProperties_independent [("y", QVariant.int 3)]
      { currentObjects := [{ id := 1 }, { id := 2, properties := [("y", QVariant.int 0)] },
          { id := 3, properties := [("x", QVariant.int 1)] }] }).2
      { id := 3, properties := [("x", QVariant.int 1)] }
      [("x", QVariant.int 1), ("y", QVariant.int 3)]).2
    ⟨by decide, by decide, by decide⟩

/-! ## Map objects: one edit, several selected objects -/

theorem filter_other_length (x : Nat) (l : List MapObject)
    (hnd : (l.map MapObject.id).Nodup) (hx : x ∈ l.map MapObject.id) :
    (l.filter (fun obj => decide (obj.id ≠ x))).length + 1 = l.length := by
  induction l with
  | nil => simp at hx
  | cons a rest ih =>
    simp only [List.map_cons, List.nodup_cons] at hnd
    obtain ⟨hna, hrest⟩ := hnd
    by_cases ha : a.id = x
    · subst ha
      have hall : rest.filter (fun obj => decide (obj.id ≠ a.id)) = rest := by
        rw [List.filter_eq_self]
        intro o ho
        have : o.id ≠ a.id := by
          intro h
          apply hna
          rw [← h]
          exact List.mem_map_of_mem MapObject.id ho
        exact decide_eq_true this
      have hhead : ¬ decide (a.id ≠ a.id) = true := by simp
      rw [List.filter_cons, if_neg hhead, hall]
      rfl
    · have hx2 : x ∈ rest.map MapObject.id := by
        simp only [List.map_cons, List.mem_cons] at hx
        rcases hx with hx | hx
        · exact absurd hx.symm ha
        · exact hx
      have hlen := ih hrest hx2
      have hhead : decide (a.id ≠ x) = true := decide_eq_true ha
      rw [List.filter_cons, if_pos hhead]
      simp only [List.length_cons]
      omega

theorem changeMapObject_eq (text : MapObjectCommand → String) (mapDocument : MapDocument)
    (mapObject : MapObject) (property : MapObjectProperty) (value : QVariant)
    (h : mapDocument.selectedObjects.length ≠ 1) :
    changeMapObject text mapDocument mapObject property value =
      UndoCall.beginMacro (text (MapObjectCommand.ChangeMapObject mapObject property value)) ::
        ((MapObjectCommand.ChangeMapObject mapObject property value ::
            (mapDocument.selectedObjects.filter (fun obj => decide (obj.id ≠ mapObject.id))).map
              (fun obj => MapObjectCommand.ChangeMapObject obj property value)).map UndoCall.push
          ++ [UndoCall.endMacro]) := by
  unfold changeMapObject
  simp [h, List.map_map, Function.comp_def]

/-- C4, as the code has it: with two or more map objects selected, the edited
one among them, `changeMapObject` records one group (one history entry) that
holds one `ChangeMapObject` command per selected object, each command naming a
single object, all with the edited property and value.  The commands are
pushed in this order: the command for the edited object first, then those for
the other selected objects in selection order; the calls are one `beginMacro`,
these pushes, and one `endMacro`. -/
theorem changeMapObject_group (text : MapObjectCommand → String) (mapDocument : MapDocument)
    (mapObject : MapObject) (property : MapObjectProperty) (value : QVariant)
    (hN : 2 ≤ mapDocument.selectedObjects.length)
    (hmem : mapObject ∈ mapDocument.selectedObjects)
    (hnd : (mapDocument.selectedObjects.map MapObject.id).Nodup) :
    (∀ entries : List (HistoryEntry MapObjectCommand),
      QUndoStack.run { entries := entries, recording := none, depth := 0 }
          (changeMapObject text mapDocument mapObject property value) =
        { entries := entries ++ [HistoryEntry.group
            (text (MapObjectCommand.ChangeMapObject mapObject property value))
            (pushedCommands (changeMapObject text mapDocument mapObject property value))],
          recording := none, depth := 0 }) ∧
    (pushedCommands (changeMapObject text mapDocument mapObject property value)).length
      = mapDocument.selectedObjects.length ∧
    (∀ c ∈ pushedCommands (changeMapObject text mapDocument mapObject property value),
      ∃ obj ∈ mapDocument.selectedObjects,
        c = MapObjectCommand.ChangeMapObject obj property value ∧ c.affected = [obj]) ∧
    (∀ obj ∈ mapDocument.selectedObjects,
      MapObjectCommand.ChangeMapObject obj property value
        ∈ pushedCommands (changeMapObject text mapDocument mapObject property value)) ∧
    pushedCommands (changeMapObject text mapDocument mapObject property value) =
      MapObjectCommand.ChangeMapObject mapObject property value ::
        (mapDocument.selectedObjects.filter (fun obj => decide (obj.id ≠ mapObject.id))).map
          (fun obj => MapObjectCommand.ChangeMapObject obj property value) ∧
    changeMapObject text mapDocument mapObject property value =
      UndoCall.beginMacro (text (MapObjectCommand.ChangeMapObject mapObject property value)) ::
        ((pushedCommands (changeMapObject text mapDocument mapObject property value)).map
            UndoCall.push
          ++ [UndoCall.endMacro]) := by
  have hne : mapDocument.selectedObjects.length ≠ 1 := by omega
  have heq := changeMapObject_eq text mapDocument mapObject property value hne
  have hpushed := congrArg pushedCommands heq
  rw [pushedCommands_group] at hpushed
  refine ⟨?_, ?_, ?_, ?_, hpushed, ?_⟩
  rotate_right
  · rw [hpushed]
    exact heq
  · intro entries
    rw [hpushed, heq, run_group]
  · rw [hpushed]
    simp only [List.length_cons, List.length_map]
    exact filter_other_length mapObject.id mapDocument.selectedObjects hnd
      (List.mem_map_of_mem MapObject.id hmem)
  · intro c hc
    rw [hpushed] at hc
    rcases List.mem_cons.1 hc with h | h
    · exact ⟨mapObject, hmem, h, by rw [h]; rfl⟩
    · obtain ⟨obj, hobj, rfl⟩ := List.mem_map.1 h
      exact ⟨obj, (List.mem_filter.1 hobj).1, rfl, rfl⟩
  · intro obj hobj
    rw [hpushed]
    by_cases hid : obj.id = mapObject.id
    · have : obj = mapObject :=
        List.inj_on_of_nodup_map hnd hobj hmem hid
      rw [this]
      exact List.mem_cons_self _ _
    · apply List.mem_cons_of_mem
      exact List.mem_map.2 ⟨obj, List.mem_filter.2 ⟨hobj, decide_eq_true hid⟩, rfl⟩

/-- C4 at a concrete edit with objects 1, 2, 3 selected and object 2 edited:
one group of three single-object commands, pushed in the order 2, 1, 3. -/
theorem changeMapObject_group_witness :
    pushedCommands
        (changeMapObject (fun _ => "Change Object")
          { selectedObjects := [{ id := 1 }, { id := 2 }, { id := 3 }] } { id := 2 }
          MapObjectProperty.VisibleProperty (QVariant.bool false)) =
      [MapObjectCommand.ChangeMapObject { id := 2 } MapObjectProperty.VisibleProperty
          (QVariant.bool false),
        MapObjectCommand.ChangeMapObject { id := 1 } MapObjectProperty.VisibleProperty
          (QVariant.bool false),
        MapObjectCommand.ChangeMapObject { id := 3 } MapObjectProperty.VisibleProperty
          (QVariant.bool false)] ∧
    QUndoStack.run { entries := [], recording := none, depth := 0 }
        (changeMapObject (fun _ => "Change Object")
          { selectedObjects := [{ id := 1 }, { id := 2 }, { id := 3 }] } { id := 2 }
          MapObjectProperty.VisibleProperty (QVariant.bool false)) =
      { entries := [HistoryEntry.group "Change Object"
          [MapObjectCommand.ChangeMapObject { id := 2 } MapObjectProperty.VisibleProperty
              (QVariant.bool false),
            MapObjectCommand.ChangeMapObject { id := 1 } MapObjectProperty.VisibleProperty
              (QVariant.bool false),
            MapObjectCommand.ChangeMapObject { id := 3 } MapObjectProperty.VisibleProperty
              (QVariant.bool false)]],
        recording := none, depth := 0 } :=
  ⟨(changeMapObject_group (fun _ => "Change Object")
      { selectedObjects := [{ id := 1 }, { id := 2 }, { id := 3 }] } { id := 2 }
      MapObjectProperty.VisibleProperty (QVariant.bool false)
      (by decide) (by decide) (by decide)).2.2.2.2.1.trans (by decide),
    ((changeMapObject_group (fun _ => "Change Object")
      { selectedObjects := [{ id := 1 }, { id := 2 }, { id := 3 }] } { id := 2 }
      MapObjectProperty.VisibleProperty (QVariant.bool false)
      (by decide) (by decide) (by decide)).1 []).trans (by decide)⟩

/-- C4 as stated fails: with the three map objects 1, 2, 3 selected, setting
`visible` on object 1 pushes three commands, one per object, so there is no
single pushed command that covers all selected objects. -/
theorem changeMapObject_single_command_counterexample :
    pushedCommands (MapObjectProperties.setVisible (fun _ => "Change Object")
        { selectedObjects := [{ id := 1 }, { id := 2 }, { id := 3 }] } { id := 1 } false) =
      [MapObjectCommand.ChangeMapObject { id := 1 } MapObjectProperty.VisibleProperty
          (QVariant.bool false),
        MapObjectCommand.ChangeMapObject { id := 2 } MapObjectProperty.VisibleProperty
          (QVariant.bool false),
        MapObjectCommand.ChangeMapObject { id := 3 } MapObjectProperty.VisibleProperty
          (QVariant.bool false)] ∧
    ¬ ∃ c : MapObjectCommand,
      pushedCommands (MapObjectProperties.setVisible (fun _ => "Change Object")
          { selectedObjects := [{ id := 1 }, { id := 2 }, { id := 3 }] } { id := 1 } false) = [c] ∧
        ∀ obj ∈ [({ id := 1 } : MapObject), { id := 2 }, { id := 3 }], obj ∈ c.affected := by
  have h : pushedCommands (MapObjectProperties.setVisible (fun _ => "Change Object")
        { selectedObjects := [{ id := 1 }, { id := 2 }, { id := 3 }] } { id := 1 } false) =
      [MapObjectCommand.ChangeMapObject { id := 1 } MapObjectProperty.VisibleProperty
          (QVariant.bool false),
        MapObjectCommand.ChangeMapObject { id := 2 } MapObjectProperty.VisibleProperty
          (QVariant.bool false),
        MapObjectCommand.ChangeMapObject { id := 3 } MapObjectProperty.VisibleProperty
          (QVariant.bool false)] := by decide
  refine ⟨h, ?_⟩
  rintro ⟨c, hc, _⟩
  rw [h] at hc
  simp at hc

/-! ## Layers: one command over the selected layers -/

/-- C5: each of the setters for name, visible, locked, opacity, tint colour
and parallax factor makes exactly one call, a push of one command whose layer
list is `selectedLayers()` and which carries the edited value (opacity as
`value / 100`); on a stack with no group open this adds one entry, however
many layers are selected. -/
theorem layer_setters_one_command (mapDocument : MapDocument) (name : String)
    (visible locked : Bool) (opacity : Int) (tintColor : Nat) (parallaxFactor : qreal × qreal) :
    LayerProperties.setName mapDocument name =
      [UndoCall.push (LayerCommand.SetLayerName mapDocument.selectedLayers name)] ∧
    LayerProperties.setVisible mapDocument visible =
      [UndoCall.push (LayerCommand.SetLayerVisible mapDocument.selectedLayers visible)] ∧
    LayerProperties.setLocked mapDocument locked =
      [UndoCall.push (LayerCommand.SetLayerLocked mapDocument.selectedLayers locked)] ∧
    LayerProperties.setOpacity mapDocument opacity =
      [UndoCall.push (LayerCommand.SetLayerOpacity mapDocument.selectedLayers
        ((opacity : ℚ) / 100))] ∧
    LayerProperties.setTintColor mapDocument tintColor =
      [UndoCall.push (LayerCommand.SetLayerTintColor mapDocument.selectedLayers tintColor)] ∧
    LayerProperties.setParallaxFactor mapDocument parallaxFactor =
      [UndoCall.push (LayerCommand.SetLayerParallaxFactor mapDocument.selectedLayers
        parallaxFactor)] ∧
    (∀ calls ∈ [LayerProperties.setName mapDocument name,
        LayerProperties.setVisible mapDocument visible,
        LayerProperties.setLocked mapDocument locked,
        LayerProperties.setOpacity mapDocument opacity,
        LayerProperties.setTintColor mapDocument tintColor,
        LayerProperties.setParallaxFactor mapDocument parallaxFactor],
      ∃ c : LayerCommand, pushedCommands calls = [c] ∧
        c.layers = mapDocument.selectedLayers ∧
        (QUndoStack.run { entries := [], recording := none, depth := 0 } calls).entries
          = [HistoryEntry.single c]) := by
  refine ⟨rfl, rfl, rfl, rfl, rfl, rfl, ?_⟩
  intro calls hcalls
  simp only [List.mem_cons, List.mem_singleton, List.not_mem_nil, or_false] at hcalls
  rcases hcalls with h | h | h | h | h | h <;> subst h
  · exact ⟨_, rfl, rfl, rfl⟩
  · exact ⟨_, rfl, rfl, rfl⟩
  · exact ⟨_, rfl, rfl, rfl⟩
  · exact ⟨_, rfl, rfl, rfl⟩
  · exact ⟨_, rfl, rfl, rfl⟩
  · exact ⟨_, rfl, rfl, rfl⟩

/-- C5 with three layers selected and the name edited: one command over the
three layers. -/
theorem layer_setters_one_command_witness :
    ∃ c : LayerCommand,
      pushedCommands (LayerProperties.setName
          { selectedLayers := [{ id := 1 }, { id := 2 }, { id := 3 }] } "ground") = [c] ∧
        c.layers = [{ id := 1 }, { id := 2 }, { id := 3 }] :=
  have h := (layer_setters_one_command
      { selectedLayers := [{ id := 1 }, { id := 2 }, { id := 3 }] } "ground" true true 50 0
      (1, 1)).2.2.2.2.2.2
    (LayerProperties.setName { selectedLayers := [{ id := 1 }, { id := 2 }, { id := 3 }] }
      "ground") (List.mem_cons_self _ _)
  h.elim (fun c hc => ⟨c, hc.1, hc.2.1⟩)

/-- C6, where the code departs from the claim: whenever the property group has
a document, `selectedLayersOfType` returns the empty list whatever is
selected, and with a null document it has no defined result.  With image
layers 1 and 3 and tile layer 2 selected, the specification's list is
`[1, 3]`, the code's is empty, and the image source command is pushed with no
layers, as are the other commands of the image layer and object group
setters. -/
theorem selectedLayersOfType_returns_empty :
    (∀ (mapDocument : MapDocument) (typeFlag : TypeFlag),
      LayerProperties.selectedLayersOfType (some mapDocument) typeFlag = some []) ∧
    (∀ typeFlag : TypeFlag, LayerProperties.selectedLayersOfType none typeFlag = none) ∧
    (∀ (mapDocument : MapDocument) (url : String) (color : Nat) (drawOrder : DrawOrder),
      ImageLayerProperties.setImageSource (some mapDocument) url =
        some [UndoCall.push (LayerCommand.ChangeImageLayerImageSource [] url)] ∧
      ImageLayerProperties.setTransparentColor (some mapDocument) color =
        some [UndoCall.push (LayerCommand.ChangeImageLayerTransparentColor [] color)] ∧
      ObjectGroupProperties.setColor (some mapDocument) color =
        some [UndoCall.push (LayerCommand.ChangeObjectGroupColor [] color)] ∧
      ObjectGroupProperties.setDrawOrder (some mapDocument) drawOrder =
        some [UndoCall.push (LayerCommand.ChangeObjectGroupDrawOrder [] drawOrder)]) ∧
    LayerProperties.specSelectedLayersOfType
        { selectedLayers := [{ id := 1, layerType := TypeFlag.ImageLayerType }, { id := 2 },
            { id := 3, layerType := TypeFlag.ImageLayerType }] } TypeFlag.ImageLayerType
      = [{ id := 1, layerType := TypeFlag.ImageLayerType },
          { id := 3, layerType := TypeFlag.ImageLayerType }] ∧
    LayerProperties.selectedLayersOfType
        (some { selectedLayers := [{ id := 1, layerType := TypeFlag.ImageLayerType }, { id := 2 },
            { id := 3, layerType := TypeFlag.ImageLayerType }] }) TypeFlag.ImageLayerType
      = some [] ∧
    ImageLayerProperties.setImageSource
        (some { selectedLayers := [{ id := 1, layerType := TypeFlag.ImageLayerType }, { id := 2 },
            { id := 3, layerType := TypeFlag.ImageLayerType }] }) "sky.png"
      = some [UndoCall.push (LayerCommand.ChangeImageLayerImageSource [] "sky.png")] := by
  refine ⟨fun _ _ => rfl, fun _ => rfl, fun _ _ _ _ => ⟨rfl, rfl, rfl, rfl⟩, by decide, rfl, rfl⟩

/-! ## The update guard of CustomProperties -/

theorem CustomProperties.refresh_mUpdating (self : CustomProperties) (d : Option Document) :
    (self.refresh d).mUpdating = self.mUpdating := by
  unfold CustomProperties.refresh
  split <;> rfl

theorem CustomProperties.deliver_mUpdating (self : CustomProperties)
    (e : Document × PropertySignal) : (self.deliver e).mUpdating = self.mUpdating := by
  obtain ⟨d, sig⟩ := e
  cases sig <;>
    simp only [CustomProperties.deliver, CustomProperties.propertyAdded,
      CustomProperties.propertyRemoved, CustomProperties.propertyChanged,
      CustomProperties.propertiesChanged] <;>
    split_ifs <;>
    first | rfl | exact CustomProperties.refresh_mUpdating _ _

theorem CustomProperties.deliverAll_mUpdating (signals : List (Document × PropertySignal))
    (self : CustomProperties) : (self.deliverAll signals).mUpdating = self.mUpdating := by
  induction signals generalizing self with
  | nil => rfl
  | cons e rest ih =>
    have h := ih (self.deliver e)
    simp only [CustomProperties.deliverAll, List.foldl_cons] at h ⊢
    rw [h, CustomProperties.deliver_mUpdating]

theorem CustomProperties.deliver_guarded (self : CustomProperties)
    (e : Document × PropertySignal) (hu : self.mUpdating = true) (hg : e.2.guarded = true) :
    self.deliver e = self := by
  obtain ⟨d, sig⟩ := e
  cases sig <;>
    simp_all [CustomProperties.deliver, CustomProperties.propertyAdded,
      CustomProperties.propertyRemoved, CustomProperties.propertyChanged,
      PropertySignal.guarded]

theorem CustomProperties.deliverAll_guarded (signals : List (Document × PropertySignal))
    (self : CustomProperties) (hu : self.mUpdating = true)
    (hg : ∀ e ∈ signals, e.2.guarded = true) : self.deliverAll signals = self := by
  induction signals with
  | nil => rfl
  | cons e rest ih =>
    have h1 := CustomProperties.deliver_guarded self e hu (hg e (List.mem_cons_self _ _))
    have h2 := ih (fun e he => hg e (List.mem_cons_of_mem _ he))
    simp only [CustomProperties.deliverAll, List.foldl_cons] at h2 ⊢
    rw [h1, h2]

/-- C7: the update guard.  While `mUpdating` is set, the slots of
`propertyAdded`, `propertyRemoved` and `propertyChanged` return the view
unchanged (no `refresh`).  No slot changes `mUpdating`.  For a non-empty path
`setPropertyValue` returns, leaves `mUpdating` at the value it had on entry,
and when the signals emitted by its push are of those three kinds the whole
view is as before the call, `refreshCalls` included.  So `mUpdating`, false
initially, is false outside `setPropertyValue`. -/
theorem setPropertyValue_guard (self : CustomProperties) (mDocument : Document)
    (emitted : PropertyCommand → List (Document × PropertySignal))
    (path : List String) (value : QVariant) (hpath : path ≠ []) :
    (∀ (view : CustomProperties) (e : Document × PropertySignal),
      view.mUpdating = true → e.2.guarded = true → view.deliver e = view) ∧
    (∀ (view : CustomProperties) (e : Document × PropertySignal),
      (view.deliver e).mUpdating = view.mUpdating) ∧
    ∃ (result : CustomProperties) (calls : List (UndoCall PropertyCommand)),
      self.setPropertyValue mDocument emitted path value = some (result, calls) ∧
      result.mUpdating = self.mUpdating ∧
      ((∀ command, ∀ e ∈ emitted command, e.2.guarded = true) → result = self) := by
  refine ⟨fun view e hu hg => CustomProperties.deliver_guarded view e hu hg,
    fun view e => CustomProperties.deliver_mUpdating view e, ?_⟩
  by_cases hsel : mDocument.currentObjects.isEmpty = true
  · refine ⟨self, [], ?_, rfl, fun _ => rfl⟩
    simp [CustomProperties.setPropertyValue, hsel]
  · have hsel2 : mDocument.currentObjects.isEmpty = false := by simpa using hsel
    by_cases hset : path.length > 1 ∨ value.isValid = true
    · refine ⟨{ (CustomProperties.deliverAll { self with mUpdating := true }
          (emitted (PropertyCommand.SetProperty mDocument.currentObjects path value))) with
          mUpdating := self.mUpdating },
        [UndoCall.push (PropertyCommand.SetProperty mDocument.currentObjects path value)],
        ?_, rfl, ?_⟩
      · simp only [CustomProperties.setPropertyValue, hsel2, Bool.not_false, if_true]
        rw [if_pos hset]
      · intro hg
        rw [CustomProperties.deliverAll_guarded _ _ rfl (hg _)]
    · cases path with
      | nil => exact absurd rfl hpath
      | cons first rest =>
        refine ⟨{ (CustomProperties.deliverAll { self with mUpdating := true }
            (emitted (PropertyCommand.RemoveProperty mDocument.currentObjects first))) with
            mUpdating := self.mUpdating },
          [UndoCall.push (PropertyCommand.RemoveProperty mDocument.currentObjects first)],
          ?_, rfl, ?_⟩
        · simp only [CustomProperties.setPropertyValue, hsel2, Bool.not_false, if_true]
          rw [if_neg hset]
          rfl
        · intro hg
          rw [CustomProperties.deliverAll_guarded _ _ rfl (hg _)]

/-- C7 at a concrete edit: the push emits `propertyAdded` and
`propertyChanged` for the current object; the view comes back unchanged,
although the same signals outside `setPropertyValue` refresh it twice. -/
theorem setPropertyValue_guard_witness :
    CustomProperties.setPropertyValue {}
        { currentObject := some { id := 1 }, currentObjects := [{ id := 1 }] }
        (fun _ =>
          [(({ currentObject := some { id := 1 }, currentObjects := [{ id := 1 }] } : Document),
              PropertySignal.propertyAdded { id := 1 } "p"),
            ({ currentObject := some { id := 1 }, currentObjects := [{ id := 1 }] },
              PropertySignal.propertyChanged { id := 1 } "p")])
        ["p"] (QVariant.int 1)
      = some ({}, [UndoCall.push (PropertyCommand.SetProperty [{ id := 1 }] ["p"]
          (QVariant.int 1))]) ∧
    (CustomProperties.deliverAll {}
        [(({ currentObject := some { id := 1 }, currentObjects := [{ id := 1 }] } : Document),
            PropertySignal.propertyAdded { id := 1 } "p"),
          ({ currentObject := some { id := 1 }, currentObjects := [{ id := 1 }] },
            PropertySignal.propertyChanged { id := 1 } "p")]).refreshCalls = 2 := by
  obtain ⟨_, _, result, calls, hres, _, hsame⟩ := setPropertyValue_guard {}
    { currentObject := some { id := 1 }, currentObjects := [{ id := 1 }] }
    (fun _ =>
      [(({ currentObject := some { id := 1 }, currentObjects := [{ id := 1 }] } : Document),
          PropertySignal.propertyAdded { id := 1 } "p"),
        ({ currentObject := some { id := 1 }, currentObjects := [{ id := 1 }] },
          PropertySignal.propertyChanged { id := 1 } "p")])
    ["p"] (QVariant.int 1) (by decide)
  have hself := hsame (fun _ => by decide)
  subst hself
  exact ⟨by decide, by decide⟩

/-! ## EditableWorld: script calls go through the undo stack -/

theorem World.mapIndex_neg_iff (world : World) (fileName : String) :
    world.mapIndex fileName < 0 ↔ ∀ entry ∈ world.maps, entry.fileName ≠ fileName := by
  unfold World.mapIndex
  cases h : world.maps.findIdx? (fun entry => decide (entry.fileName = fileName)) with
  | none =>
    rw [List.findIdx?_eq_none_iff] at h
    simp only [Int.reduceNeg, Int.reduceLT, true_iff]
    intro entry hentry
    simpa using h entry hentry
  | some i =>
    have hi : ¬ ((i : Int) < 0) := by omega
    simp only [hi, false_iff]
    intro hall
    have hnone : world.maps.findIdx? (fun entry => decide (entry.fileName = fileName)) = none := by
      rw [List.findIdx?_eq_none_iff]
      intro entry hentry
      simpa using hall entry hentry
    rw [hnone] at h
    exact Option.noConfusion h

/-- C8: `setMapRect` and `removeMap` on an editable that wraps a world.  The
index test is negative exactly when the world has no map with the file name.
In that case both raise "Map not found in this world" and make no call on the
undo stack; otherwise they raise nothing and make exactly one call, the push
of `SetMapRectCommand(fileName, rect)` resp. `RemoveMapCommand(fileName)`.  In
every case the wrapped world and the document are as before. -/
theorem setMapRect_removeMap (self : EditableWorld) (world : World) (mapFileName : String)
    (rect : QRect) (hworld : self.object = some world) :
    (world.mapIndex mapFileName < 0 ↔ ∀ entry ∈ world.maps, entry.fileName ≠ mapFileName) ∧
    (world.mapIndex mapFileName < 0 →
      self.setMapRect mapFileName rect =
        some { self with errors := self.errors ++ ["Map not found in this world"] } ∧
      self.removeMap mapFileName =
        some { self with errors := self.errors ++ ["Map not found in this world"] }) ∧
    (¬ world.mapIndex mapFileName < 0 →
      self.setMapRect mapFileName rect =
        some { self with undoCalls := self.undoCalls ++
          [UndoCall.push (WorldCommand.SetMapRectCommand mapFileName rect)] } ∧
      self.removeMap mapFileName =
        some { self with undoCalls := self.undoCalls ++
          [UndoCall.push (WorldCommand.RemoveMapCommand mapFileName)] }) ∧
    (∀ result, (self.setMapRect mapFileName rect = some result ∨
        self.removeMap mapFileName = some result) →
      result.object = self.object ∧ result.document = self.document) := by
  refine ⟨World.mapIndex_neg_iff world mapFileName, ?_, ?_, ?_⟩
  · intro h
    simp [EditableWorld.setMapRect, EditableWorld.removeMap, hworld, h,
      EditableWorld.throwScriptError]
  · intro h
    simp [EditableWorld.setMapRect, EditableWorld.removeMap, hworld, h, EditableWorld.push]
  · intro result hres
    by_cases h : world.mapIndex mapFileName < 0
    · simp only [EditableWorld.setMapRect, EditableWorld.removeMap, hworld, h, if_true,
        EditableWorld.throwScriptError, Option.some.injEq, or_self] at hres
      subst hres
      exact ⟨hworld.symm, rfl⟩
    · simp only [EditableWorld.setMapRect, EditableWorld.removeMap, hworld, h, if_false,
        EditableWorld.push, Option.some.injEq] at hres
      rcases hres with hres | hres <;> subst hres <;> exact ⟨hworld.symm, rfl⟩

/-- C8 on a world holding `a.tmx`: moving `a.tmx` pushes one command, removing
`b.tmx` raises the error and pushes nothing. -/
theorem setMapRect_removeMap_witness :
    EditableWorld.setMapRect
        { object := some { id := 1, maps := [{ fileName := "a.tmx" }] },
          document := { world := { id := 1, maps := [{ fileName := "a.tmx" }] } } }
        "a.tmx" { x := 8, y := 8, width := 16, height := 16 } =
      some {
        object := some { id := 1, maps := [{ fileName := "a.tmx" }] },
        document := { world := { id := 1, maps := [{ fileName := "a.tmx" }] } },
        undoCalls := [UndoCall.push (WorldCommand.SetMapRectCommand "a.tmx"
          { x := 8, y := 8, width := 16, height := 16 })] } ∧
    EditableWorld.removeMap
        { object := some { id := 1, maps := [{ fileName := "a.tmx" }] },
          document := { world := { id := 1, maps := [{ fileName := "a.tmx" }] } } }
        "b.tmx" =
      some {
        object := some { id := 1, maps := [{ fileName := "a.tmx" }] },
        document := { world := { id := 1, maps := [{ fileName := "a.tmx" }] } },
        errors := ["Map not found in this world"] } :=
  ⟨((setMapRect_removeMap
      { object := some { id := 1, maps := [{ fileName := "a.tmx" }] },
        document := { world := { id := 1, maps := [{ fileName := "a.tmx" }] } } }
      { id := 1, maps := [{ fileName := "a.tmx" }] } "a.tmx"
      { x := 8, y := 8, width := 16, height := 16 } rfl).2.2.1 (by decide)).1,
    ((setMapRect_removeMap
      { object := some { id := 1, maps := [{ fileName := "a.tmx" }] },
        document := { world := { id := 1, maps := [{ fileName := "a.tmx" }] } } }
      { id := 1, maps := [{ fileName := "a.tmx" }] } "b.tmx" {} rfl).2.1 (by decide)).2⟩

/-- C9: `addMap(fileName, rect)`.  An empty file name raises "Invalid
argument"; a non-empty name of a map that some loaded world contains raises
"Map is already part of a loaded world"; in both cases no call is made on the
undo stack.  Otherwise nothing is raised and the one call made is the push of
`AddMapCommand(fileName, rect)`.  So the command is pushed iff the name is
non-empty and no loaded world contains the map. -/
theorem addMap_cases (worldForMap : String → Option World) (self : EditableWorld)
    (mapFileName : String) (rect : QRect) :
    (mapFileName = "" →
      self.addMap worldForMap mapFileName rect =
        { self with errors := self.errors ++ ["Invalid argument"] }) ∧
    (mapFileName ≠ "" → (worldForMap mapFileName).isSome = true →
      self.addMap worldForMap mapFileName rect =
        { self with errors := self.errors ++ ["Map is already part of a loaded world"] }) ∧
    (mapFileName ≠ "" → worldForMap mapFileName = none →
      self.addMap worldForMap mapFileName rect =
        { self with undoCalls := self.undoCalls ++
          [UndoCall.push (WorldCommand.AddMapCommand mapFileName rect)] }) ∧
    ((self.addMap worldForMap mapFileName rect).undoCalls =
        self.undoCalls ++ [UndoCall.push (WorldCommand.AddMapCommand mapFileName rect)] ↔
      mapFileName ≠ "" ∧ worldForMap mapFileName = none) ∧
    ((self.addMap worldForMap mapFileName rect).undoCalls = self.undoCalls ↔
      ¬ (mapFileName ≠ "" ∧ worldForMap mapFileName = none)) := by
  have hgrow : ∀ (l : List (UndoCall WorldCommand)) (c : UndoCall WorldCommand),
      l ≠ l ++ [c] := by
    intro l c h
    have := congrArg List.length h
    simp at this
  by_cases he : mapFileName = ""
  · have hempty : mapFileName.isEmpty = true := (String.isEmpty_iff _).2 he
    have hdef : self.addMap worldForMap mapFileName rect =
        { self with errors := self.errors ++ ["Invalid argument"] } := by
      simp [EditableWorld.addMap, hempty, EditableWorld.throwScriptError]
    refine ⟨fun _ => hdef, fun h => absurd he h, fun h => absurd he h, ?_, ?_⟩
    · rw [hdef]
      constructor
      · intro h
        exact absurd h (hgrow _ _)
      · intro h
        exact absurd he h.1
    · rw [hdef]
      simp [he]
  · have hempty : ¬ mapFileName.isEmpty = true := fun h => he ((String.isEmpty_iff _).1 h)
    cases hw : worldForMap mapFileName with
    | none =>
      have hdef : self.addMap worldForMap mapFileName rect =
          { self with undoCalls := self.undoCalls ++
            [UndoCall.push (WorldCommand.AddMapCommand mapFileName rect)] } := by
        simp [EditableWorld.addMap, hempty, hw, EditableWorld.push]
      refine ⟨fun h => absurd h he, fun _ h => by simp at h, fun _ _ => hdef, ?_, ?_⟩
      · rw [hdef]
        simp [he]
      · rw [hdef]
        simp [he]
    | some w =>
      have hdef : self.addMap worldForMap mapFileName rect =
          { self with errors := self.errors ++ ["Map is already part of a loaded world"] } := by
        simp [EditableWorld.addMap, hempty, hw, EditableWorld.throwScriptError]
      refine ⟨fun h => absurd h he, fun _ _ => hdef, fun _ h => by simp at h, ?_, ?_⟩
      · rw [hdef]
        constructor
        · intro h
          exact absurd h (hgrow _ _)
        · intro h
          simp at h
      · rw [hdef]
        simp

/-- C9 with `a.tmx` already in a loaded world: adding `b.tmx` pushes the
command, adding `a.tmx` or the empty name raises an error. -/
theorem addMap_cases_witness :
    EditableWorld.addMap
        (fun f => if f = "a.tmx" then some { id := 1, maps := [{ fileName := "a.tmx" }] } else none)
        { object := some { id := 1, maps := [{ fileName := "a.tmx" }] },
          document := { world := { id := 1, maps := [{ fileName := "a.tmx" }] } } }
        "b.tmx" { x := 0, y := 16, width := 16, height := 16 } =
      { object := some { id := 1, maps := [{ fileName := "a.tmx" }] },
        document := { world := { id := 1, maps := [{ fileName := "a.tmx" }] } },
        undoCalls := [UndoCall.push (WorldCommand.AddMapCommand "b.tmx"
          { x := 0, y := 16, width := 16, height := 16 })] } ∧
    EditableWorld.addMap
        (fun f => if f = "a.tmx" then some { id := 1, maps := [{ fileName := "a.tmx" }] } else none)
        { object := some { id := 1, maps := [{ fileName := "a.tmx" }] },
          document := { world := { id := 1, maps := [{ fileName := "a.tmx" }] } } }
        "a.tmx" {} =
      { object := some { id := 1, maps := [{ fileName := "a.tmx" }] },
        document := { world := { id := 1, maps := [{ fileName := "a.tmx" }] } },
        errors := ["Map is already part of a loaded world"] } :=
  ⟨(addMap_cases
      (fun f => if f = "a.tmx" then some { id := 1, maps := [{ fileName := "a.tmx" }] } else none)
      { object := some { id := 1, maps := [{ fileName := "a.tmx" }] },
        document := { world := { id := 1, maps := [{ fileName := "a.tmx" }] } } }
      "b.tmx" { x := 0, y := 16, width := 16, height := 16 }).2.2.1 (by decide) (by decide),
    (addMap_cases
      (fun f => if f = "a.tmx" then some { id := 1, maps := [{ fileName := "a.tmx" }] } else none)
      { object := some { id := 1, maps := [{ fileName := "a.tmx" }] },
        document := { world := { id := 1, maps := [{ fileName := "a.tmx" }] } } }
      "a.tmx" {}).2.1 (by decide) (by decide)⟩

/-- C10: `documentChanged`.  On `DocumentAboutToReload` the wrapped object
becomes null, on `DocumentReloaded` it becomes the document's world, and every
other event type leaves the editable as it is; the document, the raised errors
and the undo calls are never touched.  After `DocumentAboutToReload`, a reload
that gives the document a new world, and `DocumentReloaded`, the wrapped
object is the new world. -/
theorem documentChanged_cases (self : EditableWorld) :
    (self.documentChanged ChangeEventType.DocumentAboutToReload).object = none ∧
    (self.documentChanged ChangeEventType.DocumentReloaded).object = some self.document.world ∧
    (∀ eventType : ChangeEventType,
      eventType ≠ ChangeEventType.DocumentAboutToReload →
      eventType ≠ ChangeEventType.DocumentReloaded →
      self.documentChanged eventType = self) ∧
    (∀ eventType : ChangeEventType,
      (self.documentChanged eventType).document = self.document ∧
      (self.documentChanged eventType).errors = self.errors ∧
      (self.documentChanged eventType).undoCalls = self.undoCalls) ∧
    (∀ reloaded : WorldDocument,
      (EditableWorld.documentChanged
        { self.documentChanged ChangeEventType.DocumentAboutToReload with document := reloaded }
        ChangeEventType.DocumentReloaded).object = some reloaded.world) := by
  refine ⟨rfl, rfl, ?_, ?_, fun _ => rfl⟩
  · intro eventType h1 h2
    cases eventType <;> first | rfl | exact absurd rfl h1 | exact absurd rfl h2
  · intro eventType
    cases eventType <;> exact ⟨rfl, rfl, rfl⟩

/-- C10 for an event of another type: an `ObjectsChanged` event leaves the
wrapped world in place. -/
theorem documentChanged_cases_witness :
    EditableWorld.documentChanged
        { object := some { id := 1 }, document := { world := { id := 2 } } }
        ChangeEventType.ObjectsChanged =
      { object := some { id := 1 }, document := { world := { id := 2 } } } :=
  (documentChanged_cases
      { object := some { id := 1 }, document := { world := { id := 2 } } }).2.2.1
    ChangeEventType.ObjectsChanged (by decide) (by decide)

/-! ## Which changes concern the displayed object -/

/-- C11: `propertyValueAffected` is true exactly when the changed object is
the current object, or the current object is a map object, the changed object
is a tile and the tile of the current object's cell, and the current object
has no own property of that name.  In particular, for a current object that
defines the name itself, a change on any other object (its tile included) is
not counted. -/
theorem propertyValueAffected_iff (current : Option Object) (changed : Object)
    (name : String) :
    (propertyValueAffected current changed name = true ↔
      current.map Object.id = some changed.id ∨
      ∃ c, current = some c ∧ c.typeId = TypeId.MapObjectType ∧
        changed.typeId = TypeId.TileType ∧ c.cellTile = some changed.id ∧
        c.hasProperty name = false) ∧
    (∀ c, current = some c → c.id ≠ changed.id → c.hasProperty name = true →
      propertyValueAffected current changed name = false) := by
  constructor
  · unfold propertyValueAffected
    by_cases hsame : current.map Object.id = some changed.id
    · simp [hsame]
    · cases current with
      | none => simp
      | some c =>
        simp only [hsame, if_false, false_or, Option.some.injEq, exists_eq_left']
        by_cases ht : c.typeId = TypeId.MapObjectType ∧ changed.typeId = TypeId.TileType
        · by_cases hc : c.cellTile = some changed.id ∧ ¬ c.hasProperty name = true
          · simp [ht, hc]
          · rw [if_pos ht, if_neg hc]
            simp only [Bool.false_eq_true, false_iff]
            rintro ⟨_, _, h3, h4⟩
            exact hc ⟨h3, by simp [h4]⟩
        · rw [if_neg ht]
          simp only [Bool.false_eq_true, false_iff]
          rintro ⟨h1, h2, _, _⟩
          exact ht ⟨h1, h2⟩
  · intro c hc hid hprop
    subst hc
    unfold propertyValueAffected
    simp [hprop, hid]

/-- C11 on a tile object: the tile's change counts while the object lacks the
name, and no longer once the object defines it. -/
theorem propertyValueAffected_iff_witness :
    propertyValueAffected (some { id := 1, cellTile := some 7 })
        { id := 7, typeId := TypeId.TileType } "hp" = true ∧
    propertyValueAffected
        (some { id := 1, cellTile := some 7, properties := [("hp", QVariant.int 3)] })
        { id := 7, typeId := TypeId.TileType } "hp" = false :=
  ⟨((propertyValueAffected_iff (some { id := 1, cellTile := some 7 })
      { id := 7, typeId := TypeId.TileType } "hp").1).2
      (Or.inr ⟨{ id := 1, cellTile := some 7 }, rfl, by decide, by decide, by decide, by decide⟩),
    (propertyValueAffected_iff
      (some { id := 1, cellTile := some 7, properties := [("hp", QVariant.int 3)] })
      { id := 7, typeId := TypeId.TileType } "hp").2
      { id := 1, cellTile := some 7, properties := [("hp", QVariant.int 3)] } rfl
      (by decide) (by decide)⟩

/-! ## Adding and setting a property -/

/-- C12: `addProperty` makes no call when the name is empty, when there is no
current object, or when the current object already has a property of that
name; otherwise its one call is the push of `SetProperty(name, value)` over
`currentObjects()`. -/
theorem addProperty_cases (mDocument : Document) (name : String) (value : QVariant) :
    (name = "" → addProperty mDocument name value = []) ∧
    (mDocument.currentObject = none → addProperty mDocument name value = []) ∧
    (∀ object, mDocument.currentObject = some object → object.hasProperty name = true →
      addProperty mDocument name value = []) ∧
    (∀ object, name ≠ "" → mDocument.currentObject = some object →
      object.hasProperty name = false →
      addProperty mDocument name value =
        [UndoCall.push (PropertyCommand.SetProperty mDocument.currentObjects [name] value)]) := by
  refine ⟨?_, ?_, ?_, ?_⟩
  · intro h
    simp [addProperty, (String.isEmpty_iff name).2 h]
  · intro h
    unfold addProperty
    split <;> simp [h]
  · intro object ho hp
    unfold addProperty
    split <;> simp [ho, hp]
  · intro object hn ho hp
    have hne : ¬ name.isEmpty = true := fun h => hn ((String.isEmpty_iff name).1 h)
    simp [addProperty, hne, ho, hp]

/-- C12 on an object that defines `hp`: adding `hp` pushes nothing, adding
`mp` pushes one `SetProperty` over the selection. -/
theorem addProperty_cases_witness :
    addProperty
        { currentObject := some { id := 1, properties := [("hp", QVariant.int 3)] },
          currentObjects := [{ id := 1, properties := [("hp", QVariant.int 3)] }, { id := 2 }] }
        "hp" (QVariant.int 9) = [] ∧
    addProperty
        { currentObject := some { id := 1, properties := [("hp", QVariant.int 3)] },
          currentObjects := [{ id := 1, properties := [("hp", QVariant.int 3)] }, { id := 2 }] }
        "mp" (QVariant.int 9) =
      [UndoCall.push (PropertyCommand.SetProperty
        [{ id := 1, properties := [("hp", QVariant.int 3)] }, { id := 2 }] ["mp"]
        (QVariant.int 9))] :=
  ⟨(addProperty_cases
      { currentObject := some { id := 1, properties := [("hp", QVariant.int 3)] },
        currentObjects := [{ id := 1, properties := [("hp", QVariant.int 3)] }, { id := 2 }] }
      "hp" (QVariant.int 9)).2.2.1 { id := 1, properties := [("hp", QVariant.int 3)] } rfl
      (by decide),
    (addProperty_cases
      { currentObject := some { id := 1, properties := [("hp", QVariant.int 3)] },
        currentObjects := [{ id := 1, properties := [("hp", QVariant.int 3)] }, { id := 2 }] }
      "mp" (QVariant.int 9)).2.2.2 { id := 1, properties := [("hp", QVariant.int 3)] }
      (by decide) rfl (by decide)⟩

/-- C13: `setPropertyValue` for a non-empty path.  With an empty selection
nothing is pushed and the view is unchanged.  Otherwise it returns having made
exactly one call, the push of one command over `currentObjects()`:
`SetProperty(path, value)` when the path has more than one element or the
value is valid, `RemoveProperty(path.first())` when the path has one element
and the value is invalid.  The view it returns is what the slots made of it
during the push, with `mUpdating` put back; no property set is written by the
function itself. -/
theorem setPropertyValue_command (self : CustomProperties) (mDocument : Document)
    (emitted : PropertyCommand → List (Document × PropertySignal))
    (first : String) (rest : List String) (value : QVariant) :
    (mDocument.currentObjects = [] →
      self.setPropertyValue mDocument emitted (first :: rest) value = some (self, [])) ∧
    (mDocument.currentObjects ≠ [] → (rest ≠ [] ∨ value.isValid = true) →
      self.setPropertyValue mDocument emitted (first :: rest) value =
        some ({ (CustomProperties.deliverAll { self with mUpdating := true }
            (emitted (PropertyCommand.SetProperty mDocument.currentObjects (first :: rest)
              value))) with mUpdating := self.mUpdating },
          [UndoCall.push
            (PropertyCommand.SetProperty mDocument.currentObjects (first :: rest) value)])) ∧
    (mDocument.currentObjects ≠ [] → rest = [] → value.isValid = false →
      self.setPropertyValue mDocument emitted (first :: rest) value =
        some ({ (CustomProperties.deliverAll { self with mUpdating := true }
            (emitted (PropertyCommand.RemoveProperty mDocument.currentObjects first))) with
            mUpdating := self.mUpdating },
          [UndoCall.push (PropertyCommand.RemoveProperty mDocument.currentObjects first)])) := by
  refine ⟨?_, ?_, ?_⟩
  · intro h
    simp [CustomProperties.setPropertyValue, h]
  · intro hsel hset
    have hsel2 : mDocument.currentObjects.isEmpty = false := by
      cases hl : mDocument.currentObjects with
      | nil => exact absurd hl hsel
      | cons _ _ => rfl
    have hcond : (first :: rest).length > 1 ∨ value.isValid = true := by
      rcases hset with h | h
      · left
        cases rest with
        | nil => exact absurd rfl h
        | cons _ _ => simp
      · exact Or.inr h
    simp only [CustomProperties.setPropertyValue, hsel2, Bool.not_false, if_true]
    rw [if_pos hcond]
  · intro hsel hrest hval
    have hsel2 : mDocument.currentObjects.isEmpty = false := by
      cases hl : mDocument.currentObjects with
      | nil => exact absurd hl hsel
      | cons _ _ => rfl
    subst hrest
    have hcond : ¬ ([first].length > 1 ∨ value.isValid = true) := by
      simp [hval]
    simp only [CustomProperties.setPropertyValue, hsel2, Bool.not_false, if_true]
    rw [if_neg hcond]
    rfl

/-- C13 at concrete edits of the property `hp` with two objects selected: a
valid value pushes `SetProperty`, the invalid value pushes `RemoveProperty`,
and a member path pushes `SetProperty` even with the invalid value. -/
theorem setPropertyValue_command_witness :
    CustomProperties.setPropertyValue {} { currentObjects := [{ id := 1 }, { id := 2 }] }
        (fun _ => []) ["hp"] (QVariant.int 5) =
      some ({}, [UndoCall.push (PropertyCommand.SetProperty [{ id := 1 }, { id := 2 }] ["hp"]
        (QVariant.int 5))]) ∧
    CustomProperties.setPropertyValue {} { currentObjects := [{ id := 1 }, { id := 2 }] }
        (fun _ => []) ["hp"] QVariant.invalid =
      some ({}, [UndoCall.push (PropertyCommand.RemoveProperty [{ id := 1 }, { id := 2 }]
        "hp")]) ∧
    CustomProperties.setPropertyValue {} { currentObjects := [] }
        (fun _ => []) ["hp"] (QVariant.int 5) = some ({}, []) :=
  ⟨(setPropertyValue_command {} { currentObjects := [{ id := 1 }, { id := 2 }] }
      (fun _ => []) "hp" [] (QVariant.int 5)).2.1 (by decide) (Or.inr rfl),
    (setPropertyValue_command {} { currentObjects := [{ id := 1 }, { id := 2 }] }
      (fun _ => []) "hp" [] QVariant.invalid).2.2 (by decide) rfl rfl,
    (setPropertyValue_command {} { currentObjects := [] }
      (fun _ => []) "hp" [] (QVariant.int 5)).1 rfl⟩

/-! ## Layer offset and object position -/

/-- C14: the layer offset edit of one axis.  When the edited offset differs
from the displayed layer's offset in x only, the offsets handed to
`SetLayerOffset` are, for each selected layer in selection order, the new x
with that layer's own y; when it differs in y only, that layer's own x with
the new y.  In every case exactly one command is pushed and its offsets have
one entry per selected layer. -/
theorem setOffset_one_axis (mapDocument : MapDocument) (layer : Layer)
    (value : qreal × qreal) :
    (layer.offset.1 ≠ value.1 → layer.offset.2 = value.2 →
      LayerProperties.setOffset mapDocument layer value =
        [UndoCall.push (LayerCommand.SetLayerOffset mapDocument.selectedLayers
          (mapDocument.selectedLayers.map (fun l => (value.1, l.offset.2))))]) ∧
    (layer.offset.1 = value.1 → layer.offset.2 ≠ value.2 →
      LayerProperties.setOffset mapDocument layer value =
        [UndoCall.push (LayerCommand.SetLayerOffset mapDocument.selectedLayers
          (mapDocument.selectedLayers.map (fun l => (l.offset.1, value.2))))]) ∧
    (∃ offsets : List (qreal × qreal),
      LayerProperties.setOffset mapDocument layer value =
        [UndoCall.push (LayerCommand.SetLayerOffset mapDocument.selectedLayers offsets)] ∧
      offsets.length = mapDocument.selectedLayers.length) := by
  refine ⟨?_, ?_, ?_⟩
  · intro hx _
    simp [LayerProperties.setOffset, hx, List.map_map, Function.comp_def]
  · intro hx hy
    simp [LayerProperties.setOffset, hx, hy, List.map_map, Function.comp_def]
  · refine ⟨_, rfl, ?_⟩
    split_ifs <;> simp

/-- C14 with layers at (1, 2) and (5, 6) selected, the first displayed: moving
x to 3 gives (3, 2) and (3, 6); moving y to 4 gives (1, 4) and (5, 4). -/
theorem setOffset_one_axis_witness :
    LayerProperties.setOffset
        { selectedLayers := [{ id := 1, offset := (1, 2) }, { id := 2, offset := (5, 6) }] }
        { id := 1, offset := (1, 2) } (3, 2) =
      [UndoCall.push (LayerCommand.SetLayerOffset
        [{ id := 1, offset := (1, 2) }, { id := 2, offset := (5, 6) }] [(3, 2), (3, 6)])] ∧
    LayerProperties.setOffset
        { selectedLayers := [{ id := 1, offset := (1, 2) }, { id := 2, offset := (5, 6) }] }
        { id := 1, offset := (1, 2) } (1, 4) =
      [UndoCall.push (LayerCommand.SetLayerOffset
        [{ id := 1, offset := (1, 2) }, { id := 2, offset := (5, 6) }] [(1, 4), (5, 4)])] :=
  ⟨(setOffset_one_axis
      { selectedLayers := [{ id := 1, offset := (1, 2) }, { id := 2, offset := (5, 6) }] }
      { id := 1, offset := (1, 2) } (3, 2)).1 (by decide) (by decide),
    (setOffset_one_axis
      { selectedLayers := [{ id := 1, offset := (1, 2) }, { id := 2, offset := (5, 6) }] }
      { id := 1, offset := (1, 2) } (1, 4)).2.1 (by decide) (by decide)⟩

/-! ## What refresh displays -/

theorem Properties.mem_keys_iff (p : Properties) (n : String) :
    n ∈ Properties.keys p ↔ Properties.contains p n = true := by
  induction p with
  | nil => simp [Properties.keys, Properties.contains, Properties.value]
  | cons e rest ih =>
    obtain ⟨k, v⟩ := e
    simp only [Properties.keys, Properties.contains, List.map_cons, List.mem_cons,
      Properties.value] at ih ⊢
    by_cases h : n = k
    · simp [h]
    · simp [h, ih]

theorem contains_mergeProperties (target source : Properties) (n : String) :
    Properties.contains (mergeProperties target source) n =
      (Properties.contains target n || Properties.contains source n) := by
  simp only [Properties.contains, value_mergeProperties]
  cases Properties.value target n <;> simp

theorem contains_suggestFromSelection (current : Object) (objects : List Object)
    (suggested : Properties) (n : String) :
    Properties.contains (suggestFromSelection current suggested objects) n = true ↔
      Properties.contains suggested n = true ∨
        ∃ o ∈ objects, o.id ≠ current.id ∧ Properties.contains o.properties n = true := by
  induction objects generalizing suggested with
  | nil => simp [suggestFromSelection]
  | cons o rest ih =>
    unfold suggestFromSelection
    by_cases h : o.id ≠ current.id
    · rw [if_pos h, ih, contains_mergeProperties]
      simp only [Bool.or_eq_true, List.mem_cons, exists_eq_or_imp]
      constructor
      · rintro ((h1 | h1) | h1)
        · exact Or.inl h1
        · exact Or.inr (Or.inl ⟨h, h1⟩)
        · exact Or.inr (Or.inr h1)
      · rintro (h1 | ⟨_, h1⟩ | h1)
        · exact Or.inl (Or.inl h1)
        · exact Or.inl (Or.inr h1)
        · exact Or.inr h1
    · rw [if_neg h, ih]
      simp only [List.mem_cons, exists_eq_or_imp]
      constructor
      · rintro (h1 | h1)
        · exact Or.inl h1
        · exact Or.inr (Or.inr h1)
      · rintro (h1 | ⟨h2, _⟩ | h1)
        · exact Or.inl h1
        · exact absurd h2 h
        · exact Or.inr h1

/-- C15: `refresh`.  With a null document or no current object the value
handed to `setValue` is the empty set.  Otherwise the value is the current
object's own property set, and a name is in the suggested set exactly when it
is defined on a selected object other than the current one or is a name of the
current object's `inheritedProperties()`. -/
theorem refresh_value (self : CustomProperties) (mDocument : Option Document) :
    ((mDocument = none ∨ ∃ d, mDocument = some d ∧ d.currentObject = none) →
      (self.refresh mDocument).value = []) ∧
    (∀ d current, mDocument = some d → d.currentObject = some current →
      (self.refresh mDocument).value = current.properties ∧
      ∀ name, name ∈ Properties.keys (self.refresh mDocument).suggestedValue ↔
        (∃ o ∈ d.currentObjects, o.id ≠ current.id ∧ name ∈ Properties.keys o.properties) ∨
          name ∈ Properties.keys current.inheritedProperties) := by
  constructor
  · rintro (h | ⟨d, hd, hc⟩)
    · subst h
      rfl
    · subst hd
      simp [CustomProperties.refresh, hc]
  · intro d current hd hc
    subst hd
    have hr : self.refresh (some d) =
        { self with
          value := current.properties
          suggestedValue := mergeProperties
            (suggestFromSelection current [] d.currentObjects) current.inheritedProperties
          refreshCalls := self.refreshCalls + 1 } := by
      simp [CustomProperties.refresh, hc]
    rw [hr]
    refine ⟨rfl, ?_⟩
    intro name
    simp only [Properties.mem_keys_iff, contains_mergeProperties, Bool.or_eq_true,
      contains_suggestFromSelection]
    simp [Properties.contains, Properties.value]

/-- C15 with objects 1 (current), 2 and 3 selected: the value is the set of
object 1, and the suggested names are `b` from object 2 and `c` inherited,
but not `a`, which only the current object defines. -/
theorem refresh_value_witness :
    (CustomProperties.refresh {}
      (some {
        currentObject := some {
          id := 1, properties := [("a", QVariant.int 1)],
          inheritedProperties := [("c", QVariant.int 3)] },
        currentObjects := [
          { id := 1, properties := [("a", QVariant.int 1)],
            inheritedProperties := [("c", QVariant.int 3)] },
          { id := 2, properties := [("b", QVariant.int 2)] }, { id := 3 }] })).value
      = [("a", QVariant.int 1)] ∧
    Properties.keys (CustomProperties.refresh {}
      (some {
        currentObject := some {
          id := 1, properties := [("a", QVariant.int 1)],
          inheritedProperties := [("c", QVariant.int 3)] },
        currentObjects := [
          { id := 1, properties := [("a", QVariant.int 1)],
            inheritedProperties := [("c", QVariant.int 3)] },
          { id := 2, properties := [("b", QVariant.int 2)] }, { id := 3 }] })).suggestedValue
      = ["b", "c"] :=
  ⟨((refresh_value {}
      (some {
        currentObject := some {
          id := 1, properties := [("a", QVariant.int 1)],
          inheritedProperties := [("c", QVariant.int 3)] },
        currentObjects := [
          { id := 1, properties := [("a", QVariant.int 1)],
            inheritedProperties := [("c", QVariant.int 3)] },
          { id := 2, properties := [("b", QVariant.int 2)] }, { id := 3 }] })).2
      _ _ rfl rfl).1, by decide⟩

/-! ## changeMapObject call by call -/

theorem pushedCommands_changeMapObject (text : MapObjectCommand → String)
    (mapDocument : MapDocument) (mapObject : MapObject) (property : MapObjectProperty)
    (value : QVariant) (h : mapDocument.selectedObjects.length ≠ 1) :
    pushedCommands (changeMapObject text mapDocument mapObject property value) =
      (mapObject ::
          mapDocument.selectedObjects.filter (fun obj => decide (obj.id ≠ mapObject.id))).map
        (fun obj => MapObjectCommand.ChangeMapObject obj property value) := by
  rw [changeMapObject_eq text mapDocument mapObject property value h, pushedCommands_group]
  rfl

/-- C16: `changeMapObject` call by call.  With exactly one object selected the
only call is the push of the command for the edited object.  Otherwise the
calls are one `beginMacro`, the push for the edited object, one push with the
same property and value for every selected object other than the edited one,
in selection order, and one `endMacro`.  In both cases the stack gains one
entry and no group is left open.  When the edited object is among the
selected objects (all distinct), every selected object has exactly one pushed
command. -/
theorem changeMapObject_calls (text : MapObjectCommand → String) (mapDocument : MapDocument)
    (mapObject : MapObject) (property : MapObjectProperty) (value : QVariant) :
    (mapDocument.selectedObjects.length = 1 →
      changeMapObject text mapDocument mapObject property value =
        [UndoCall.push (MapObjectCommand.ChangeMapObject mapObject property value)]) ∧
    (mapDocument.selectedObjects.length ≠ 1 →
      changeMapObject text mapDocument mapObject property value =
        UndoCall.beginMacro (text (MapObjectCommand.ChangeMapObject mapObject property value)) ::
          UndoCall.push (MapObjectCommand.ChangeMapObject mapObject property value) ::
            (((mapDocument.selectedObjects.filter
                  (fun obj => decide (obj.id ≠ mapObject.id))).map
                (fun obj => UndoCall.push (MapObjectCommand.ChangeMapObject obj property value)))
              ++ [UndoCall.endMacro])) ∧
    (∀ entries : List (HistoryEntry MapObjectCommand), ∃ entry,
      QUndoStack.run { entries := entries, recording := none, depth := 0 }
          (changeMapObject text mapDocument mapObject property value) =
        { entries := entries ++ [entry], recording := none, depth := 0 }) ∧
    (mapObject ∈ mapDocument.selectedObjects →
      (mapDocument.selectedObjects.map MapObject.id).Nodup →
      ∀ obj ∈ mapDocument.selectedObjects,
        (pushedCommands (changeMapObject text mapDocument mapObject property value)).count
          (MapObjectCommand.ChangeMapObject obj property value) = 1) := by
  refine ⟨?_, ?_, ?_, ?_⟩
  · intro h
    simp [changeMapObject, h]
  · intro h
    simp [changeMapObject, h]
  · intro entries
    by_cases h : mapDocument.selectedObjects.length = 1
    · refine ⟨HistoryEntry.single (MapObjectCommand.ChangeMapObject mapObject property value), ?_⟩
      simp [changeMapObject, h, QUndoStack.run, QUndoStack.call]
    · rw [changeMapObject_eq text mapDocument mapObject property value h, run_group]
      exact ⟨_, rfl⟩
  · intro hmem hnd obj hobj
    by_cases h : mapDocument.selectedObjects.length = 1
    · have hsame : obj = mapObject := by
        cases hl : mapDocument.selectedObjects with
        | nil => rw [hl] at hobj; exact absurd hobj (List.not_mem_nil _)
        | cons a rest =>
          rw [hl] at h hobj hmem
          have hrest : rest = [] := by
            cases rest with
            | nil => rfl
            | cons _ _ => simp at h
          subst hrest
          rw [List.mem_singleton] at hobj hmem
          rw [hobj, hmem]
      subst hsame
      simp [changeMapObject, h, pushedCommands]
    · rw [pushedCommands_changeMapObject text mapDocument mapObject property value h]
      have hinj : Function.Injective
          (fun o : MapObject => MapObjectCommand.ChangeMapObject o property value) := by
        intro a b hab
        injection hab
      have hsel : mapDocument.selectedObjects.Nodup := List.Nodup.of_map _ hnd
      have hnodup : (mapObject ::
          mapDocument.selectedObjects.filter (fun o => decide (o.id ≠ mapObject.id))).Nodup := by
        rw [List.nodup_cons]
        refine ⟨?_, hsel.filter _⟩
        intro hin
        have := (List.mem_filter.1 hin).2
        simp at this
      apply List.count_eq_one_of_mem (hnodup.map hinj)
      apply List.mem_map.2
      by_cases hid : obj.id = mapObject.id
      · have : obj = mapObject := List.inj_on_of_nodup_map hnd hobj hmem hid
        exact ⟨obj, by rw [this]; exact List.mem_cons_self _ _, rfl⟩
      · exact ⟨obj, List.mem_cons_of_mem _
          (List.mem_filter.2 ⟨hobj, decide_eq_true hid⟩), rfl⟩

/-- C16 at two edits of the rotation of object 2: alone in the selection it is
one push; with objects 1, 2, 3 selected it is a group with the command for 2
first, then those for 1 and 3. -/
theorem changeMapObject_calls_witness :
    changeMapObject (fun _ => "Change Object") { selectedObjects := [{ id := 2 }] } { id := 2 }
        MapObjectProperty.RotationProperty (QVariant.int 90) =
      [UndoCall.push (MapObjectCommand.ChangeMapObject { id := 2 }
        MapObjectProperty.RotationProperty (QVariant.int 90))] ∧
    changeMapObject (fun _ => "Change Object")
        { selectedObjects := [{ id := 1 }, { id := 2 }, { id := 3 }] } { id := 2 }
        MapObjectProperty.RotationProperty (QVariant.int 90) =
      [UndoCall.beginMacro "Change Object",
        UndoCall.push (MapObjectCommand.ChangeMapObject { id := 2 }
          MapObjectProperty.RotationProperty (QVariant.int 90)),
        UndoCall.push (MapObjectCommand.ChangeMapObject { id := 1 }
          MapObjectProperty.RotationProperty (QVariant.int 90)),
        UndoCall.push (MapObjectCommand.ChangeMapObject { id := 3 }
          MapObjectProperty.RotationProperty (QVariant.int 90)),
        UndoCall.endMacro] :=
  ⟨(changeMapObject_calls (fun _ => "Change Object") { selectedObjects := [{ id := 2 }] }
      { id := 2 } MapObjectProperty.RotationProperty (QVariant.int 90)).1 (by decide),
    ((changeMapObject_calls (fun _ => "Change Object")
      { selectedObjects := [{ id := 1 }, { id := 2 }, { id := 3 }] } { id := 2 }
      MapObjectProperty.RotationProperty (QVariant.int 90)).2.1 (by decide)).trans (by decide)⟩

/-- C17: the position edit of map objects.  Exactly one
`TransformMapObjects` command is pushed, over the selected objects; its states
are, in selection order, one per selected object, and the position of an
object's state has the new x if the new x differs from the edited object's old
x and the object's own x otherwise, and likewise and independently for y.
The size in each state is the object's own. -/
theorem setPosition_states (mapDocument : MapDocument) (mapObject : MapObject)
    (value : qreal × qreal) :
    MapObjectProperties.setPosition mapDocument mapObject value =
      [UndoCall.push (MapObjectCommand.TransformMapObjects mapDocument.selectedObjects
        (mapDocument.selectedObjects.map (fun object =>
          { position :=
              (if mapObject.position.1 ≠ value.1 then value.1 else object.position.1,
                if mapObject.position.2 ≠ value.2 then value.2 else object.position.2),
            size := object.size })))] ∧
    (mapDocument.selectedObjects.map (fun object =>
        ({ position :=
             (if mapObject.position.1 ≠ value.1 then value.1 else object.position.1,
               if mapObject.position.2 ≠ value.2 then value.2 else object.position.2),
           size := object.size } : TransformState))).length
      = mapDocument.selectedObjects.length := by
  refine ⟨?_, by simp⟩
  unfold MapObjectProperties.setPosition
  have hstate : ∀ object : MapObject,
      positionState (decide (mapObject.position.1 ≠ value.1))
          (decide (mapObject.position.2 ≠ value.2)) value object =
        { position :=
            (if mapObject.position.1 ≠ value.1 then value.1 else object.position.1,
              if mapObject.position.2 ≠ value.2 then value.2 else object.position.2),
          size := object.size } := by
    intro object
    unfold positionState TransformState.ofMapObject
    by_cases hx : mapObject.position.1 ≠ value.1 <;>
      by_cases hy : mapObject.position.2 ≠ value.2 <;> simp [hx, hy]
  simp only []
  rw [funext hstate]

/-- C17 with objects at (1, 2) and (5, 6) selected, the first displayed:
moving x to 3 gives the positions (3, 2) and (3, 6). -/
theorem setPosition_states_witness :
    MapObjectProperties.setPosition
        { selectedObjects := [{ id := 1, position := (1, 2) }, { id := 2, position := (5, 6) }] }
        { id := 1, position := (1, 2) } (3, 2) =
      [UndoCall.push (MapObjectCommand.TransformMapObjects
        [{ id := 1, position := (1, 2) }, { id := 2, position := (5, 6) }]
        [{ position := (3, 2) }, { position := (3, 6) }])] :=
  (setPosition_states
    { selectedObjects := [{ id := 1, position := (1, 2) }, { id := 2, position := (5, 6) }] }
    { id := 1, position := (1, 2) } (3, 2)).1.trans (by decide)

/-! ## EditableWorld: setMapPos -/

theorem findIdx?_of_find? {α : Type} (p : α → Bool) (l : List α) (e : α)
    (h : l.find? p = some e) : ∃ i, l.findIdx? p = some i ∧ l[i]? = some e := by
  induction l with
  | nil => simp at h
  | cons a rest ih =>
    by_cases hp : p a = true
    · rw [List.find?_cons_of_pos _ hp] at h
      injection h with h
      subst h
      exact ⟨0, by simp [List.findIdx?_cons, hp], by simp⟩
    · rw [List.find?_cons_of_neg _ hp] at h
      obtain ⟨i, hi, hget⟩ := ih h
      refine ⟨i + 1, ?_, by simpa using hget⟩
      rw [List.findIdx?_cons, if_neg hp, List.findIdx?_succ, hi]
      rfl

/-- C18: `setMapPos`.  A null map raises the null-argument error.  For an
editable that wraps a world: a map whose file name the world does not hold
raises "Map not found in this world"; in both error cases no call is made on
the undo stack.  For a map the world holds, nothing is raised and the one call
made is the push of `SetMapRectCommand` with the map's file name and a rect
whose top-left corner is (x, y) and whose width and height are those of the
map's rect in the world. -/
theorem setMapPos_cases (self : EditableWorld) (world : World) (map : EditableMap)
    (x y : Int) (hworld : self.object = some world) :
    self.setMapPos none x y =
      some { self with errors := self.errors ++ [nullArgMessage 0] } ∧
    ((∀ entry ∈ world.maps, entry.fileName ≠ map.fileName) →
      self.setMapPos (some map) x y =
        some { self with errors := self.errors ++ ["Map not found in this world"] }) ∧
    (∀ entry, world.maps.find? (fun e => decide (e.fileName = map.fileName)) = some entry →
      self.setMapPos (some map) x y =
        some { self with undoCalls := self.undoCalls ++
          [UndoCall.push (WorldCommand.SetMapRectCommand map.fileName
            { x := x, y := y, width := entry.rect.width, height := entry.rect.height })] }) := by
  refine ⟨rfl, ?_, ?_⟩
  · intro h
    have hneg := (World.mapIndex_neg_iff world map.fileName).2 h
    simp [EditableWorld.setMapPos, hworld, hneg, EditableWorld.throwScriptError]
  · intro entry hfind
    obtain ⟨i, hi, hget⟩ := findIdx?_of_find? _ _ _ hfind
    have hidx : world.mapIndex map.fileName = (i : Int) := by
      unfold World.mapIndex
      rw [hi]
    have hnot : ¬ ((i : Int) < 0) := by omega
    simp only [EditableWorld.setMapPos, hworld, hidx, hnot, if_false, Int.toNat_ofNat, hget,
      EditableWorld.push, QRect.moveTo]

/-- C18 on a world holding `a.tmx` at (0, 0) with size 16 by 8: moving it to
(32, 48) pushes the rect (32, 48, 16, 8); a map of another file raises the
error. -/
theorem setMapPos_cases_witness :
    EditableWorld.setMapPos
        { object := some { id := 1, maps := [{ fileName := "a.tmx",
                                                rect := { width := 16, height := 8 } }] },
          document := { world := { id := 1 } } }
        (some { fileName := "a.tmx" }) 32 48 =
      some {
        object := some { id := 1, maps := [{ fileName := "a.tmx",
                                             rect := { width := 16, height := 8 } }] },
        document := { world := { id := 1 } },
        undoCalls := [UndoCall.push (WorldCommand.SetMapRectCommand "a.tmx"
          { x := 32, y := 48, width := 16, height := 8 })] } ∧
    EditableWorld.setMapPos
        { object := some { id := 1, maps := [{ fileName := "a.tmx",
                                                rect := { width := 16, height := 8 } }] },
          document := { world := { id := 1 } } }
        (some { fileName := "b.tmx" }) 32 48 =
      some {
        object := some { id := 1, maps := [{ fileName := "a.tmx",
                                             rect := { width := 16, height := 8 } }] },
        document := { world := { id := 1 } },
        errors := ["Map not found in this world"] } :=
  ⟨(setMapPos_cases
      { object := some { id := 1, maps := [{ fileName := "a.tmx",
                                              rect := { width := 16, height := 8 } }] },
        document := { world := { id := 1 } } }
      { id := 1, maps := [{ fileName := "a.tmx", rect := { width := 16, height := 8 } }] }
      { fileName := "a.tmx" } 32 48 rfl).2.2
      { fileName := "a.tmx", rect := { width := 16, height := 8 } } (by decide),
    (setMapPos_cases
      { object := some { id := 1, maps := [{ fileName := "a.tmx",
                                              rect := { width := 16, height := 8 } }] },
        document := { world := { id := 1 } } }
      { id := 1, maps := [{ fileName := "a.tmx", rect := { width := 16, height := 8 } }] }
      { fileName := "b.tmx" } 32 48 rfl).2.1 (by decide)⟩

/-! ## Which objects and events refresh the view -/

/-- C19: `objectPropertiesRelevant` is false when the document has no current
object; with a current object it is true exactly when the object is the
current object, or the current object is a map object whose cell's tile is the
object, or the object is among `currentObjects()`.  For an object that is not
relevant the slots `propertyAdded`, `propertyRemoved` and `propertiesChanged`
leave the view as it is (no `refresh`). -/
theorem objectPropertiesRelevant_iff (document : Document) (object : Object) :
    (document.currentObject = none → objectPropertiesRelevant document object = false) ∧
    (∀ current, document.currentObject = some current →
      (objectPropertiesRelevant document object = true ↔
        current.id = object.id ∨
        (current.typeId = TypeId.MapObjectType ∧ current.cellTile = some object.id) ∨
        object.id ∈ document.currentObjects.map Object.id)) ∧
    (objectPropertiesRelevant document object = false →
      ∀ (self : CustomProperties) (name : String),
        self.propertyAdded document object name = self ∧
        self.propertyRemoved document object name = self ∧
        self.propertiesChanged document object = self) := by
  refine ⟨?_, ?_, ?_⟩
  · intro h
    simp [objectPropertiesRelevant, h]
  · intro current h
    unfold objectPropertiesRelevant
    rw [h]
    by_cases h1 : current.id = object.id
    · simp [h1]
    · by_cases h2 : current.typeId = TypeId.MapObjectType ∧ current.cellTile = some object.id
      · simp [h1, h2]
      · by_cases h3 : (document.currentObjects.map Object.id).contains object.id = true
        · have h3m : object.id ∈ document.currentObjects.map Object.id := by
            simpa using h3
          simp only [h1, h2, h3, if_false, if_true, false_or, true_iff]
          exact h3m
        · have h3m : ¬ object.id ∈ document.currentObjects.map Object.id := by
            simpa using h3
          simp only [h1, h2, h3, if_false, false_or, Bool.false_eq_true, false_iff]
          exact h3m
  · intro h self name
    simp [CustomProperties.propertyAdded, CustomProperties.propertyRemoved,
      CustomProperties.propertiesChanged, h]

/-- C19 with map object 1 current, its cell on tile 7, objects 1 and 2
selected: the tile and object 2 are relevant, object 3 is not and its
`propertyAdded` changes nothing. -/
theorem objectPropertiesRelevant_iff_witness :
    objectPropertiesRelevant
        { currentObject := some { id := 1, cellTile := some 7 },
          currentObjects := [{ id := 1, cellTile := some 7 }, { id := 2 }] }
        { id := 7, typeId := TypeId.TileType } = true ∧
    CustomProperties.propertyAdded {}
        { currentObject := some { id := 1, cellTile := some 7 },
          currentObjects := [{ id := 1, cellTile := some 7 }, { id := 2 }] }
        { id := 3 } "hp" = {} :=
  ⟨((objectPropertiesRelevant_iff
      { currentObject := some { id := 1, cellTile := some 7 },
        currentObjects := [{ id := 1, cellTile := some 7 }, { id := 2 }] }
      { id := 7, typeId := TypeId.TileType }).2.1 { id := 1, cellTile := some 7 } rfl).2
      (Or.inr (Or.inl ⟨by decide, by decide⟩)),
    ((objectPropertiesRelevant_iff
      { currentObject := some { id := 1, cellTile := some 7 },
        currentObjects := [{ id := 1, cellTile := some 7 }, { id := 2 }] }
      { id := 3 }).2.2 (by decide) {} "hp").1⟩

/-- C20: `onChanged` calls `refresh` exactly when the event is
`ObjectsChanged` with the `ClassProperty` bit set, the document has a current
object, and either the event's objects contain the current object, or the
current object is a map object with an empty class name whose cell has a tile
that the event's objects contain.  For every other event the view is left as
it is. -/
theorem onChanged_iff (self : CustomProperties) (mDocument : Document)
    (change : ChangeEvent) :
    ((change.type = ChangeEventType.ObjectsChanged ∧
        change.properties &&& ObjectsChangeEvent.ClassProperty ≠ 0 ∧
        ∃ current, mDocument.currentObject = some current ∧
          (current.id ∈ change.objects.map Object.id ∨
            (current.typeId = TypeId.MapObjectType ∧ current.className = "" ∧
              ∃ tile, current.cellTile = some tile ∧ tile ∈ change.objects.map Object.id))) →
      self.onChanged mDocument change = self.refresh (some mDocument)) ∧
    (¬ (change.type = ChangeEventType.ObjectsChanged ∧
        change.properties &&& ObjectsChangeEvent.ClassProperty ≠ 0 ∧
        ∃ current, mDocument.currentObject = some current ∧
          (current.id ∈ change.objects.map Object.id ∨
            (current.typeId = TypeId.MapObjectType ∧ current.className = "" ∧
              ∃ tile, current.cellTile = some tile ∧ tile ∈ change.objects.map Object.id))) →
      self.onChanged mDocument change = self) ∧
    (self.refresh (some mDocument)).refreshCalls = self.refreshCalls + 1 := by
  refine ⟨?_, ?_, ?_⟩
  · rintro ⟨ht, hbit, current, hcur, hobj⟩
    unfold CustomProperties.onChanged
    rw [hcur]
    simp only [ht, ne_eq, not_true_eq_false, if_false, hbit, not_false_eq_true, if_true]
    by_cases hin : (change.objects.map Object.id).contains current.id = true
    · rw [if_pos hin]
    · rw [if_neg hin]
      have hnin : ¬ current.id ∈ change.objects.map Object.id := by simpa using hin
      rcases hobj with h | ⟨hty, hcls, tile, htile, htin⟩
      · exact absurd h hnin
      · have hc : (change.objects.map Object.id).contains tile = true := by simpa using htin
        have he : current.className.isEmpty = true := (String.isEmpty_iff _).2 hcls
        rw [if_pos hty]
        simp only [htile]
        rw [if_pos ⟨he, hc⟩]
  · intro hnot
    unfold CustomProperties.onChanged
    by_cases ht : change.type = ChangeEventType.ObjectsChanged
    · cases hcur : mDocument.currentObject with
      | none => simp [ht]
      | some current =>
        by_cases hbit : change.properties &&& ObjectsChangeEvent.ClassProperty ≠ 0
        · simp only [ht, ne_eq, not_true_eq_false, if_false, hbit, not_false_eq_true, if_true]
          by_cases hin : (change.objects.map Object.id).contains current.id = true
          · exfalso
            exact hnot ⟨ht, hbit, current, hcur, Or.inl (by simpa using hin)⟩
          · rw [if_neg hin]
            by_cases hty : current.typeId = TypeId.MapObjectType
            · rw [if_pos hty]
              cases htile : current.cellTile with
              | none => rfl
              | some tile =>
                by_cases hc : current.className.isEmpty = true ∧
                    (change.objects.map Object.id).contains tile = true
                · exfalso
                  exact hnot ⟨ht, hbit, current, hcur, Or.inr ⟨hty,
                    (String.isEmpty_iff _).1 hc.1, tile, htile, by simpa using hc.2⟩⟩
                · simp only [hc, if_false]
            · rw [if_neg hty]
        · simp only [ht, ne_eq, not_true_eq_false, if_false, hbit]
    · simp [ht]
  · unfold CustomProperties.refresh
    split <;> rfl

/-- C20 with map object 1 current, no class of its own, its cell on tile 7: a
class change of tile 7 refreshes the view, an event of another type does
not. -/
theorem onChanged_iff_witness :
    CustomProperties.onChanged {}
        { currentObject := some { id := 1, cellTile := some 7 } }
        { type := ChangeEventType.ObjectsChanged,
          objects := [{ id := 7, typeId := TypeId.TileType }], properties := 1 } =
      CustomProperties.refresh {}
        (some { currentObject := some { id := 1, cellTile := some 7 } }) ∧
    CustomProperties.onChanged {}
        { currentObject := some { id := 1, cellTile := some 7 } }
        { type := ChangeEventType.LayerChanged,
          objects := [{ id := 7, typeId := TypeId.TileType }], properties := 1 } = {} :=
  ⟨(onChanged_iff {}
      { currentObject := some { id := 1, cellTile := some 7 } }
      { type := ChangeEventType.ObjectsChanged,
        objects := [{ id := 7, typeId := TypeId.TileType }], properties := 1 }).1
      ⟨rfl, by decide, { id := 1, cellTile := some 7 }, rfl,
        Or.inr ⟨by decide, by decide, 7, rfl, by decide⟩⟩,
    (onChanged_iff {}
      { currentObject := some { id := 1, cellTile := some 7 } }
      { type := ChangeEventType.LayerChanged,
        objects := [{ id := 7, typeId := TypeId.TileType }], properties := 1 }).2.1
      (fun h => absurd h.1 (by decide))⟩

/-! ## MapObjectProperties: which fields a change event notifies -/

/-- C21: `MapObjectProperties::onChanged`.  An event that is not
`MapObjectsChanged`, or whose map objects do not contain the displayed object,
emits nothing.  Otherwise the `valueChanged` of a member is emitted exactly
when its flag is set in the event, where the bounds (Geometry) member is
emitted exactly when the position or the size flag is set, and the position
member when the position flag is set. -/
theorem onChanged_members (mapObject : MapObject) (event : ChangeEvent) :
    ((event.type ≠ ChangeEventType.MapObjectsChanged ∨
        mapObject.id ∉ event.mapObjects.map MapObject.id) →
      MapObjectProperties.onChanged mapObject event = []) ∧
    (event.type = ChangeEventType.MapObjectsChanged →
      mapObject.id ∈ event.mapObjects.map MapObject.id →
      (MapObjectMember.mNameProperty ∈ MapObjectProperties.onChanged mapObject event ↔
        MapObjectProperty.NameProperty ∈ event.changedProperties) ∧
      (MapObjectMember.mVisibleProperty ∈ MapObjectProperties.onChanged mapObject event ↔
        MapObjectProperty.VisibleProperty ∈ event.changedProperties) ∧
      (MapObjectMember.mPositionProperty ∈ MapObjectProperties.onChanged mapObject event ↔
        MapObjectProperty.PositionProperty ∈ event.changedProperties) ∧
      (MapObjectMember.mBoundsProperty ∈ MapObjectProperties.onChanged mapObject event ↔
        MapObjectProperty.PositionProperty ∈ event.changedProperties ∨
          MapObjectProperty.SizeProperty ∈ event.changedProperties) ∧
      (MapObjectMember.mRotationProperty ∈ MapObjectProperties.onChanged mapObject event ↔
        MapObjectProperty.RotationProperty ∈ event.changedProperties) ∧
      (MapObjectMember.mFlippingProperty ∈ MapObjectProperties.onChanged mapObject event ↔
        MapObjectProperty.CellProperty ∈ event.changedProperties) ∧
      (MapObjectMember.mTextProperty ∈ MapObjectProperties.onChanged mapObject event ↔
        MapObjectProperty.TextProperty ∈ event.changedProperties) ∧
      (MapObjectMember.mTextFontProperty ∈ MapObjectProperties.onChanged mapObject event ↔
        MapObjectProperty.TextFontProperty ∈ event.changedProperties) ∧
      (MapObjectMember.mTextAlignmentProperty ∈ MapObjectProperties.onChanged mapObject event ↔
        MapObjectProperty.TextAlignmentProperty ∈ event.changedProperties) ∧
      (MapObjectMember.mTextWordWrapProperty ∈ MapObjectProperties.onChanged mapObject event ↔
        MapObjectProperty.TextWordWrapProperty ∈ event.changedProperties) ∧
      (MapObjectMember.mTextColorProperty ∈ MapObjectProperties.onChanged mapObject event ↔
        MapObjectProperty.TextColorProperty ∈ event.changedProperties)) := by
  constructor
  · rintro (h | h)
    · simp [MapObjectProperties.onChanged, h]
    · have hc : (event.mapObjects.map MapObject.id).contains mapObject.id = false := by
        simpa using h
      unfold MapObjectProperties.onChanged
      rw [hc]
      simp
  · intro ht hm
    have hc : (event.mapObjects.map MapObject.id).contains mapObject.id = true := by
      simpa using hm
    have hout : MapObjectProperties.onChanged mapObject event =
        (if event.has MapObjectProperty.NameProperty then [MapObjectMember.mNameProperty] else [])
        ++ (if event.has MapObjectProperty.VisibleProperty then
              [MapObjectMember.mVisibleProperty] else [])
        ++ (if event.has MapObjectProperty.PositionProperty then
              [MapObjectMember.mPositionProperty, MapObjectMember.mBoundsProperty] else [])
        ++ (if event.has MapObjectProperty.SizeProperty then [MapObjectMember.mBoundsProperty]
            else [])
        ++ (if event.has MapObjectProperty.RotationProperty then
              [MapObjectMember.mRotationProperty] else [])
        ++ (if event.has MapObjectProperty.CellProperty then [MapObjectMember.mFlippingProperty]
            else [])
        ++ (if event.has MapObjectProperty.TextProperty then [MapObjectMember.mTextProperty]
            else [])
        ++ (if event.has MapObjectProperty.TextFontProperty then
              [MapObjectMember.mTextFontProperty] else [])
        ++ (if event.has MapObjectProperty.TextAlignmentProperty then
              [MapObjectMember.mTextAlignmentProperty] else [])
        ++ (if event.has MapObjectProperty.TextWordWrapProperty then
              [MapObjectMember.mTextWordWrapProperty] else [])
        ++ (if event.has MapObjectProperty.TextColorProperty then
              [MapObjectMember.mTextColorProperty] else []) := by
      unfold MapObjectProperties.onChanged
      rw [hc]
      simp [ht]
    rw [hout]
    simp [ChangeEvent.has]

/-- C21 for an event with the position and name flags that holds the
displayed object: the name, position and bounds members are notified. -/
theorem onChanged_members_witness :
    MapObjectProperties.onChanged { id := 1 }
        { type := ChangeEventType.MapObjectsChanged, mapObjects := [{ id := 1 }, { id := 2 }],
          changedProperties := [MapObjectProperty.PositionProperty,
            MapObjectProperty.NameProperty] } =
      [MapObjectMember.mNameProperty, MapObjectMember.mPositionProperty,
        MapObjectMember.mBoundsProperty] ∧
    MapObjectProperties.onChanged { id := 3 }
        { type := ChangeEventType.MapObjectsChanged, mapObjects := [{ id := 1 }, { id := 2 }],
          changedProperties := [MapObjectProperty.PositionProperty,
            MapObjectProperty.NameProperty] } = [] :=
  ⟨by decide,
    (onChanged_members { id := 3 }
      { type := ChangeEventType.MapObjectsChanged, mapObjects := [{ id := 1 }, { id := 2 }],
        changedProperties := [MapObjectProperty.PositionProperty,
          MapObjectProperty.NameProperty] }).1 (Or.inr (by decide))⟩

/-! ## Renaming a property -/

/-- C22: `renameProperty`, when the dialog delivers `newName`: nothing is
pushed for an empty `newName` or one equal to `name`; otherwise the one call
is the push of `RenameProperty(name, newName)` over `currentObjects()`. -/
theorem renameProperty_cases (mDocument : Document) (name newName : String) :
    (newName = "" → renameProperty mDocument name newName = []) ∧
    (newName = name → renameProperty mDocument name newName = []) ∧
    (newName ≠ "" → newName ≠ name →
      renameProperty mDocument name newName =
        [UndoCall.push
          (PropertyCommand.RenameProperty mDocument.currentObjects name newName)]) := by
  refine ⟨?_, ?_, ?_⟩
  · intro h
    simp [renameProperty, (String.isEmpty_iff newName).2 h]
  · intro h
    unfold renameProperty
    split <;> simp [h]
  · intro h1 h2
    have hne : ¬ newName.isEmpty = true := fun h => h1 ((String.isEmpty_iff newName).1 h)
    simp [renameProperty, hne, h2]

/-- C22 for the property `hp` with two objects selected: renaming to `mp`
pushes one command, renaming to `hp` or to the empty name pushes nothing. -/
theorem renameProperty_cases_witness :
    renameProperty { currentObjects := [{ id := 1 }, { id := 2 }] } "hp" "mp" =
      [UndoCall.push (PropertyCommand.RenameProperty [{ id := 1 }, { id := 2 }] "hp" "mp")] ∧
    renameProperty { currentObjects := [{ id := 1 }, { id := 2 }] } "hp" "hp" = [] ∧
    renameProperty { currentObjects := [{ id := 1 }, { id := 2 }] } "hp" "" = [] :=
  ⟨(renameProperty_cases { currentObjects := [{ id := 1 }, { id := 2 }] } "hp" "mp").2.2
      (by decide) (by decide),
    (renameProperty_cases { currentObjects := [{ id := 1 }, { id := 2 }] } "hp" "hp").2.1 rfl,
    (renameProperty_cases { currentObjects := [{ id := 1 }, { id := 2 }] } "hp" "").1 rfl⟩

/-! ## Layer offset, both axes -/

/-- C23, where the code departs from the claim: with layers at (1, 2) and
(5, 6) selected and the first displayed, editing the offset to (3, 4) changes
both axes, yet the offsets pushed are (3, 2) and (3, 6): the new y is dropped,
because the y branch is the `else` of the x branch.  The position edit of map
objects at the same coordinates pushes (3, 4) for both objects. -/
theorem setOffset_both_axes_drops_y :
    LayerProperties.setOffset
        { selectedLayers := [{ id := 1, offset := (1, 2) }, { id := 2, offset := (5, 6) }] }
        { id := 1, offset := (1, 2) } (3, 4) =
      [UndoCall.push (LayerCommand.SetLayerOffset
        [{ id := 1, offset := (1, 2) }, { id := 2, offset := (5, 6) }] [(3, 2), (3, 6)])] ∧
    MapObjectProperties.setPosition
        { selectedObjects := [{ id := 1, position := (1, 2) }, { id := 2, position := (5, 6) }] }
        { id := 1, position := (1, 2) } (3, 4) =
      [UndoCall.push (MapObjectCommand.TransformMapObjects
        [{ id := 1, position := (1, 2) }, { id := 2, position := (5, 6) }]
        [{ position := (3, 4) }, { position := (3, 4) }])] := by
  constructor <;> decide

/-! ## Geometry edit -/

/-- C24: the geometry edit of map objects.  One `TransformMapObjects` command
is pushed over the selected objects, with one state per object in selection
order.  In an object's state x and y are the new x and y where these differ
from the edited object's old bounds, for every selected object; width and
height are the new ones only where they differ from the old bounds and the
object has dimensions; every other component is the object's own.  So an
object without dimensions keeps its own size. -/
theorem setBounds_states (mapDocument : MapDocument) (mapObject : MapObject)
    (value : QRectF) :
    MapObjectProperties.setBounds mapDocument mapObject value =
      [UndoCall.push (MapObjectCommand.TransformMapObjects mapDocument.selectedObjects
        (mapDocument.selectedObjects.map (fun object =>
          { position :=
              (if mapObject.position.1 ≠ value.x then value.x else object.position.1,
                if mapObject.position.2 ≠ value.y then value.y else object.position.2),
            size :=
              (if mapObject.size.1 ≠ value.width ∧ object.hasDimensions = true then value.width
                else object.size.1,
                if mapObject.size.2 ≠ value.height ∧ object.hasDimensions = true then
                  value.height
                else object.size.2) })))] ∧
    (∀ object : MapObject, object.hasDimensions = false →
      (boundsState (decide (mapObject.bounds.x ≠ value.x)) (decide (mapObject.bounds.y ≠ value.y))
        (decide (mapObject.bounds.width ≠ value.width))
        (decide (mapObject.bounds.height ≠ value.height)) value object).size = object.size) := by
  constructor
  · unfold MapObjectProperties.setBounds
    have hstate : ∀ object : MapObject,
        boundsState (decide (mapObject.bounds.x ≠ value.x))
            (decide (mapObject.bounds.y ≠ value.y))
            (decide (mapObject.bounds.width ≠ value.width))
            (decide (mapObject.bounds.height ≠ value.height)) value object =
          { position :=
              (if mapObject.position.1 ≠ value.x then value.x else object.position.1,
                if mapObject.position.2 ≠ value.y then value.y else object.position.2),
            size :=
              (if mapObject.size.1 ≠ value.width ∧ object.hasDimensions = true then value.width
                else object.size.1,
                if mapObject.size.2 ≠ value.height ∧ object.hasDimensions = true then
                  value.height
                else object.size.2) } := by
      intro object
      unfold boundsState TransformState.ofMapObject MapObject.bounds
      by_cases hx : mapObject.position.1 = value.x <;>
        by_cases hy : mapObject.position.2 = value.y <;>
        by_cases hw : mapObject.size.1 = value.width <;>
        by_cases hh : mapObject.size.2 = value.height <;>
        cases hd : object.hasDimensions <;> simp [hx, hy, hw, hh, hd]
    simp only []
    rw [funext hstate]
  · intro object hd
    unfold boundsState TransformState.ofMapObject
    simp [hd]

/-- C24 with a rectangle at (1, 2) of size 10 by 20 displayed and a point
object at (5, 6) also selected: moving x to 3 and the width to 30 gives the
rectangle (3, 2) with 30 by 20 and leaves the point its size, at (3, 6). -/
theorem setBounds_states_witness :
    MapObjectProperties.setBounds
        { selectedObjects := [{ id := 1, position := (1, 2), size := (10, 20) },
            { id := 2, position := (5, 6), hasDimensions := false }] }
        { id := 1, position := (1, 2), size := (10, 20) }
        { x := 3, y := 2, width := 30, height := 20 } =
      [UndoCall.push (MapObjectCommand.TransformMapObjects
        [{ id := 1, position := (1, 2), size := (10, 20) },
          { id := 2, position := (5, 6), hasDimensions := false }]
        [{ position := (3, 2), size := (30, 20) }, { position := (3, 6), size := (0, 0) }])] :=
  (setBounds_states
    { selectedObjects := [{ id := 1, position := (1, 2), size := (10, 20) },
        { id := 2, position := (5, 6), hasDimensions := false }] }
    { id := 1, position := (1, 2), size := (10, 20) }
    { x := 3, y := 2, width := 30, height := 20 }).1.trans (by decide)

/-! ## Flipping: flag bits -/

theorem and_one_ne_zero (n : Nat) : decide (n &&& 1 ≠ 0) = n.testBit 0 := by
  have h : n &&& 1 = (n.testBit 0).toNat * 2 ^ 0 := Nat.and_two_pow n 0
  rw [h]
  cases n.testBit 0 <;> simp

theorem and_two_ne_zero (n : Nat) : decide (n &&& 2 ≠ 0) = n.testBit 1 := by
  have h : n &&& 2 = (n.testBit 1).toNat * 2 ^ 1 := Nat.and_two_pow n 1
  rw [h]
  cases n.testBit 1 <;> simp

theorem and_one_ne (a b : Nat) :
    decide ((a &&& 1) ≠ (b &&& 1)) = decide (a.testBit 0 ≠ b.testBit 0) := by
  have ha : a &&& 1 = (a.testBit 0).toNat * 2 ^ 0 := Nat.and_two_pow a 0
  have hb : b &&& 1 = (b.testBit 0).toNat * 2 ^ 0 := Nat.and_two_pow b 0
  rw [ha, hb]
  cases a.testBit 0 <;> cases b.testBit 0 <;> simp

theorem and_two_ne (a b : Nat) :
    decide ((a &&& 2) ≠ (b &&& 2)) = decide (a.testBit 1 ≠ b.testBit 1) := by
  have ha : a &&& 2 = (a.testBit 1).toNat * 2 ^ 1 := Nat.and_two_pow a 1
  have hb : b &&& 2 = (b.testBit 1).toNat * 2 ^ 1 := Nat.and_two_pow b 1
  rw [ha, hb]
  cases a.testBit 1 <;> cases b.testBit 1 <;> simp

theorem Cell.tile_setFlag (cell : Cell) (mask : Nat) (f : Bool) :
    (cell.setFlag mask f).tile = cell.tile := by
  unfold Cell.setFlag
  split <;> rfl

theorem Cell.testBit_setFlag (cell : Cell) (k : Nat) (f : Bool) (i : Nat) :
    (cell.setFlag (2 ^ k) f).flags.testBit i =
      if i = k then f else cell.flags.testBit i := by
  unfold Cell.setFlag
  cases f
  · simp only [Bool.false_eq_true, if_false, Nat.testBit_xor, Nat.testBit_and,
      Nat.testBit_two_pow]
    by_cases h : i = k
    · have hk : k = i := h.symm
      simp [h]
    · have hk : ¬ k = i := fun e => h e.symm
      simp [h, hk]
  · simp only [if_true, Nat.testBit_or, Nat.testBit_two_pow]
    by_cases h : i = k
    · simp [h]
    · have hk : ¬ k = i := fun e => h e.symm
      simp [h, hk]

theorem flippedCell_bits (changedHorizontally changedVertically : Bool) (value : Nat)
    (object : MapObject) :
    (flippedCell changedHorizontally changedVertically value object).1 = object ∧
    (flippedCell changedHorizontally changedVertically value object).2.tile = object.cell.tile ∧
    ∀ i, (flippedCell changedHorizontally changedVertically value object).2.flags.testBit i =
      if i = 0 ∧ changedHorizontally = true then value.testBit 0
      else if i = 1 ∧ changedVertically = true then value.testBit 1
      else object.cell.flags.testBit i := by
  have hH : ∀ (c : Cell) (f : Bool) (i : Nat),
      (c.setFlippedHorizontally f).flags.testBit i = if i = 0 then f else c.flags.testBit i :=
    fun c f i => Cell.testBit_setFlag c 0 f i
  have hV : ∀ (c : Cell) (f : Bool) (i : Nat),
      (c.setFlippedVertically f).flags.testBit i = if i = 1 then f else c.flags.testBit i :=
    fun c f i => Cell.testBit_setFlag c 1 f i
  refine ⟨rfl, ?_, ?_⟩
  · unfold flippedCell
    cases changedHorizontally <;> cases changedVertically <;>
      simp [Cell.setFlippedHorizontally, Cell.setFlippedVertically, Cell.tile_setFlag]
  · intro i
    unfold flippedCell
    cases changedHorizontally <;> cases changedVertically <;>
      simp only [Bool.false_eq_true, if_false, if_true, and_false, and_true, hH, hV,
        and_one_ne_zero, and_two_ne_zero]
    · by_cases h0 : i = 0
      · subst h0
        simp
      · simp [h0]

/-- C25: the flipping edit of map objects.  Exactly one
`ChangeMapObjectCells` command is pushed, with one entry per selected object
in selection order.  With `old` the flags of the edited object's cell, the
cell pushed for an object has the tile of the object's own cell; its bit 0
(horizontal flip) is bit 0 of the new value if bit 0 differs between `old` and
the new value, and the object's own bit 0 otherwise; likewise bit 1 (vertical
flip); every other bit is the object's own. -/
theorem setFlipping_cells (mapDocument : MapDocument) (mapObject : MapObject) (value : Nat) :
    ∃ changes : List (MapObject × Cell),
      MapObjectProperties.setFlipping mapDocument mapObject value =
        [UndoCall.push (MapObjectCommand.ChangeMapObjectCells changes)] ∧
      changes.map Prod.fst = mapDocument.selectedObjects ∧
      ∀ change ∈ changes,
        change.2.tile = change.1.cell.tile ∧
        change.2.flags.testBit 0 =
          (if mapObject.cell.flags.testBit 0 ≠ value.testBit 0 then value.testBit 0
            else change.1.cell.flags.testBit 0) ∧
        change.2.flags.testBit 1 =
          (if mapObject.cell.flags.testBit 1 ≠ value.testBit 1 then value.testBit 1
            else change.1.cell.flags.testBit 1) ∧
        ∀ i, 2 ≤ i → change.2.flags.testBit i = change.1.cell.flags.testBit i := by
  refine ⟨mapDocument.selectedObjects.map
      (flippedCell (decide ((mapObject.cell.flags &&& 1) ≠ (value &&& 1)))
        (decide ((mapObject.cell.flags &&& 2) ≠ (value &&& 2))) value), rfl, ?_, ?_⟩
  · rw [List.map_map]
    have hfst : (Prod.fst ∘ flippedCell (decide ((mapObject.cell.flags &&& 1) ≠ (value &&& 1)))
        (decide ((mapObject.cell.flags &&& 2) ≠ (value &&& 2))) value) = id := by
      funext object
      rfl
    rw [hfst, List.map_id]
  · intro change hchange
    obtain ⟨object, _, rfl⟩ := List.mem_map.1 hchange
    obtain ⟨h1, h2, h3⟩ := flippedCell_bits
      (decide ((mapObject.cell.flags &&& 1) ≠ (value &&& 1)))
      (decide ((mapObject.cell.flags &&& 2) ≠ (value &&& 2))) value object
    rw [h1]
    refine ⟨h2, ?_, ?_, ?_⟩
    · rw [h3 0, and_one_ne]
      by_cases hb : mapObject.cell.flags.testBit 0 ≠ value.testBit 0
      · simp [hb]
      · simp [hb]
    · rw [h3 1, and_two_ne]
      by_cases hb : mapObject.cell.flags.testBit 1 ≠ value.testBit 1
      · simp [hb]
      · simp [hb]
    · intro i hi
      rw [h3 i]
      have h0 : ¬ i = 0 := by omega
      have h1 : ¬ i = 1 := by omega
      simp [h0, h1]

/-- C25 with tile objects of flags 5 (horizontal and anti-diagonal) and 2
(vertical) selected, the first displayed: unchecking the horizontal flip
(new value 4) clears bit 0 in both cells, and keeps tile 3, bit 2 of the
first and bit 1 of the second. -/
theorem setFlipping_cells_witness :
    (∃ changes : List (MapObject × Cell),
      MapObjectProperties.setFlipping
          { selectedObjects := [{ id := 1, cell := { tile := some 3, flags := 5 } },
              { id := 2, cell := { flags := 2 } }] }
          { id := 1, cell := { tile := some 3, flags := 5 } } 4 =
        [UndoCall.push (MapObjectCommand.ChangeMapObjectCells changes)] ∧
      changes.map Prod.fst =
        [{ id := 1, cell := { tile := some 3, flags := 5 } }, { id := 2, cell := { flags := 2 } }]) ∧
    MapObjectProperties.setFlipping
        { selectedObjects := [{ id := 1, cell := { tile := some 3, flags := 5 } },
            { id := 2, cell := { flags := 2 } }] }
        { id := 1, cell := { tile := some 3, flags := 5 } } 4 =
      [UndoCall.push (MapObjectCommand.ChangeMapObjectCells
        [({ id := 1, cell := { tile := some 3, flags := 5 } }, { tile := some 3, flags := 4 }),
          ({ id := 2, cell := { flags := 2 } }, { flags := 2 })])] :=
  ⟨(setFlipping_cells
      { selectedObjects := [{ id := 1, cell := { tile := some 3, flags := 5 } },
          { id := 2, cell := { flags := 2 } }] }
      { id := 1, cell := { tile := some 3, flags := 5 } } 4).imp
      (fun _ h => ⟨h.1, h.2.1⟩), by decide⟩

/-- C26: the two directions of the flipping editor.  Reading the buttons back
from the flags written for them gives the same checked states; writing the
flags for the states read from a value `f` gives `f` restricted to the
horizontal and vertical bits. -/
theorem flipping_editor_inverse :
    (∀ flipHorizontally flipVertically : Bool,
      FlippingProperty.syncEditor
          (FlippingProperty.syncProperty flipHorizontally flipVertically) =
        (flipHorizontally, flipVertically)) ∧
    (∀ f : Nat,
      FlippingProperty.syncProperty (FlippingProperty.syncEditor f).1
          (FlippingProperty.syncEditor f).2 =
        f &&& (Cell.FlippedHorizontally ||| Cell.FlippedVertically)) := by
  constructor
  · intro h v
    cases h <;> cases v <;> decide
  · intro f
    apply Nat.eq_of_testBit_eq
    intro i
    have h0 := and_one_ne_zero f
    have h1 := and_two_ne_zero f
    simp only [FlippingProperty.syncProperty, FlippingProperty.syncEditor,
      Cell.FlippedHorizontally, Cell.FlippedVertically, h0, h1, Nat.testBit_and]
    have h3 : (1 ||| 2 : Nat) = 2 ^ 2 - 1 := by decide
    rw [h3, Nat.testBit_two_pow_sub_one]
    cases hb0 : f.testBit 0 <;> cases hb1 : f.testBit 1 <;>
      simp only [Bool.false_eq_true, if_false, if_true]
    all_goals
      rcases i with _ | _ | i
      · simp [hb0]
      · simp [hb1, Nat.testBit_succ]
      · simp [Nat.testBit_succ]

/-! ## Image layer repeat -/

/-- C27: the repeat edit of an image layer, for a property group with a
document.  With `imageLayers` the list `selectedLayersOfType` yields, the
calls are the push of `ChangeImageLayerRepeatX` if the requested repeat-x (the
`RepeatX` bit of the value) differs from the displayed layer's `repeatX()`,
followed by the push of `ChangeImageLayerRepeatY` if the requested repeat-y
differs from its `repeatY()`, and nothing else: no call when both are as
requested, two pushes, X first and outside any group, when both differ. -/
theorem setRepeat_commands (mapDocument : MapDocument) (imageLayer : Layer) (value : Nat) :
    ∃ imageLayers : List Layer,
      LayerProperties.selectedLayersOfType (some mapDocument) TypeFlag.ImageLayerType
        = some imageLayers ∧
      ImageLayerProperties.setRepeat (some mapDocument) imageLayer value =
        some ((if decide (value &&& ImageLayerProperties.RepeatX ≠ 0) ≠ imageLayer.repeatX then
              [UndoCall.push (LayerCommand.ChangeImageLayerRepeatX imageLayers
                (decide (value &&& ImageLayerProperties.RepeatX ≠ 0)))]
            else [])
          ++ (if decide (value &&& ImageLayerProperties.RepeatY ≠ 0) ≠ imageLayer.repeatY then
              [UndoCall.push (LayerCommand.ChangeImageLayerRepeatY imageLayers
                (decide (value &&& ImageLayerProperties.RepeatY ≠ 0)))]
            else [])) ∧
      (decide (value &&& ImageLayerProperties.RepeatX ≠ 0) = imageLayer.repeatX →
        decide (value &&& ImageLayerProperties.RepeatY ≠ 0) = imageLayer.repeatY →
        ImageLayerProperties.setRepeat (some mapDocument) imageLayer value = some []) ∧
      (decide (value &&& ImageLayerProperties.RepeatX ≠ 0) ≠ imageLayer.repeatX →
        decide (value &&& ImageLayerProperties.RepeatY ≠ 0) ≠ imageLayer.repeatY →
        ImageLayerProperties.setRepeat (some mapDocument) imageLayer value =
          some [UndoCall.push (LayerCommand.ChangeImageLayerRepeatX imageLayers
              (decide (value &&& ImageLayerProperties.RepeatX ≠ 0))),
            UndoCall.push (LayerCommand.ChangeImageLayerRepeatY imageLayers
              (decide (value &&& ImageLayerProperties.RepeatY ≠ 0)))]) := by
  have heq : ImageLayerProperties.setRepeat (some mapDocument) imageLayer value =
      some ((if decide (value &&& ImageLayerProperties.RepeatX ≠ 0) ≠ imageLayer.repeatX then
            [UndoCall.push (LayerCommand.ChangeImageLayerRepeatX []
              (decide (value &&& ImageLayerProperties.RepeatX ≠ 0)))]
          else [])
        ++ (if decide (value &&& ImageLayerProperties.RepeatY ≠ 0) ≠ imageLayer.repeatY then
            [UndoCall.push (LayerCommand.ChangeImageLayerRepeatY []
              (decide (value &&& ImageLayerProperties.RepeatY ≠ 0)))]
          else [])) := rfl
  refine ⟨[], rfl, heq, ?_, ?_⟩
  · intro hx hy
    rw [heq, if_neg (fun h => h hx), if_neg (fun h => h hy)]
    rfl
  · intro hx hy
    rw [heq, if_pos hx, if_pos hy]
    rfl

/-- C27 for a layer that repeats in x only: asking for both axes pushes the Y
command alone, asking for y only pushes X then Y, asking for x only pushes
nothing. -/
theorem setRepeat_commands_witness :
    ImageLayerProperties.setRepeat (some { selectedLayers := [{ id := 1, repeatX := true }] })
        { id := 1, repeatX := true } 1 = some [] ∧
    (ImageLayerProperties.setRepeat (some { selectedLayers := [{ id := 1, repeatX := true }] })
        { id := 1, repeatX := true } 2).map pushedCommands =
      some [LayerCommand.ChangeImageLayerRepeatX [] false,
        LayerCommand.ChangeImageLayerRepeatY [] true] :=
  (setRepeat_commands { selectedLayers := [{ id := 1, repeatX := true }] }
    { id := 1, repeatX := true } 1).elim
    (fun _ h => ⟨h.2.2.1 (by decide) (by decide), by decide⟩)

/-! ## Enabled states -/

/-- C28, where the code departs from the claim: outside a tileset document
`TileProperties` and `WangColorProperties` disable all their editable members,
the class member included, but `WangSetProperties::updateEnabledState` never
touches its class member, which therefore stays as it was, enabled for a newly
made group. -/
theorem wangSet_class_stays_enabled :
    (∀ (self : WangSetProperties) (documentType : DocumentType),
      (self.updateEnabledState documentType).mClassProperty = self.mClassProperty) ∧
    WangSetProperties.updateEnabledState {} DocumentType.MapDocumentType =
      { mNameProperty := false, mClassProperty := true, mTypeProperty := false,
        mColorCountProperty := false } ∧
    (∀ (self : TileProperties) (isCollection : Bool),
      self.updateEnabledState DocumentType.MapDocumentType isCollection =
        { mIdProperty := self.mIdProperty, mClassProperty := false, mImageProperty := false,
          mRectangleProperty := false, mProbabilityProperty := false }) ∧
    (∀ self : WangColorProperties,
      self.updateEnabledState DocumentType.MapDocumentType =
        { mNameProperty := false, mClassProperty := false, mColorProperty := false,
          mProbabilityProperty := false }) := by
  refine ⟨fun _ _ => rfl, rfl, fun _ _ => rfl, fun _ => rfl⟩

/-- C29: `MapProperties::updateEnabledState`.  Hex Side Length is enabled
exactly for the hexagonal orientation, Stagger Axis and Stagger Index exactly
for the staggered and hexagonal orientations, Tile Render Order exactly for
the orthogonal orientation, Output Chunk Size exactly for an infinite map,
and Compression Level exactly for the formats Base64Gzip, Base64Zlib and
Base64Zstandard. -/
theorem map_enabled_state (self : MapProperties) (map : Map) :
    ((self.updateEnabledState map).mHexSideLengthProperty = true ↔
      map.orientation = Orientation.Hexagonal) ∧
    ((self.updateEnabledState map).mStaggerAxisProperty = true ↔
      map.orientation = Orientation.Staggered ∨ map.orientation = Orientation.Hexagonal) ∧
    ((self.updateEnabledState map).mStaggerIndexProperty = true ↔
      map.orientation = Orientation.Staggered ∨ map.orientation = Orientation.Hexagonal) ∧
    ((self.updateEnabledState map).mRenderOrderProperty = true ↔
      map.orientation = Orientation.Orthogonal) ∧
    ((self.updateEnabledState map).mChunkSizeProperty = true ↔ map.infinite = true) ∧
    ((self.updateEnabledState map).mCompressionLevelProperty = true ↔
      map.layerDataFormat = LayerDataFormat.Base64Gzip ∨
      map.layerDataFormat = LayerDataFormat.Base64Zlib ∨
      map.layerDataFormat = LayerDataFormat.Base64Zstandard) := by
  cases hf : map.layerDataFormat <;>
    simp [MapProperties.updateEnabledState, hf]

/-- C29 for an infinite hexagonal map stored as CSV. -/
theorem map_enabled_state_witness :
    MapProperties.updateEnabledState {}
        { orientation := Orientation.Hexagonal, infinite := true } =
      { mHexSideLengthProperty := true, mStaggerAxisProperty := true,
        mStaggerIndexProperty := true, mRenderOrderProperty := false,
        mChunkSizeProperty := true, mCompressionLevelProperty := false } ∧
    (MapProperties.updateEnabledState {}
        { orientation := Orientation.Hexagonal, infinite := true }).mHexSideLengthProperty
      = true :=
  ⟨by decide,
    (map_enabled_state {} { orientation := Orientation.Hexagonal, infinite := true }).1.2 rfl⟩

/-! ## EditableWorld: addMap for an open map -/

/-- C30: `addMap(map, x, y)`.  A null map raises the null-argument error and
a map with an empty file name raises "Can't add unsaved map to a world"; in
both cases no call is made on the undo stack.  Otherwise the result is that of
`addMap(fileName, rect)` for the map's file name and the rect with top-left
corner (x, y) and the size of the map's bounding rect. -/
theorem addMapAt_cases (worldForMap : String → Option World) (self : EditableWorld)
    (map : EditableMap) (x y : Int) :
    self.addMapAt worldForMap none x y =
      { self with errors := self.errors ++ [nullArgMessage 0] } ∧
    (map.fileName = "" →
      self.addMapAt worldForMap (some map) x y =
        { self with errors := self.errors ++ ["Can't add unsaved map to a world"] }) ∧
    (map.fileName ≠ "" →
      self.addMapAt worldForMap (some map) x y =
        self.addMap worldForMap map.fileName
          { x := x, y := y, width := map.boundingSize.1, height := map.boundingSize.2 }) := by
  refine ⟨rfl, ?_, ?_⟩
  · intro h
    simp [EditableWorld.addMapAt, (String.isEmpty_iff _).2 h, EditableWorld.throwScriptError]
  · intro h
    have hne : ¬ map.fileName.isEmpty = true := fun e => h ((String.isEmpty_iff _).1 e)
    simp [EditableWorld.addMapAt, hne]

/-- C30 for a saved map of 160 by 96 pixels added at (32, 48), and for an
unsaved map. -/
theorem addMapAt_cases_witness :
    EditableWorld.addMapAt (fun _ => none)
        { object := some { id := 1 }, document := { world := { id := 1 } } }
        (some { fileName := "a.tmx", boundingSize := (160, 96) }) 32 48 =
      { object := some { id := 1 }, document := { world := { id := 1 } },
        undoCalls := [UndoCall.push (WorldCommand.AddMapCommand "a.tmx"
          { x := 32, y := 48, width := 160, height := 96 })] } ∧
    EditableWorld.addMapAt (fun _ => none)
        { object := some { id := 1 }, document := { world := { id := 1 } } }
        (some { fileName := "" }) 32 48 =
      { object := some { id := 1 }, document := { world := { id := 1 } },
        errors := ["Can't add unsaved map to a world"] } :=
  ⟨((addMapAt_cases (fun _ => none)
      { object := some { id := 1 }, document := { world := { id := 1 } } }
      { fileName := "a.tmx", boundingSize := (160, 96) } 32 48).2.2 (by decide)).trans
      (by decide),
    (addMapAt_cases (fun _ => none)
      { object := some { id := 1 }, document := { world := { id := 1 } } }
      { fileName := "" } 32 48).2.1 rfl⟩

end Tiled
